import Mathlib

/-!
Shallow embedding of `daisy/scheduler.py` (the block-wise task scheduler) and
proofs about it.  Python `defaultdict`s keyed by task id are embedded as total
functions with the default value; Python `int` is embedded as `ℤ`; a raised
exception is embedded as an `Except`-style error value that carries the state
at the moment of the raise (in-place mutations performed before the raise
persist, as they do in Python).
-/

set_option maxHeartbeats 1000000

abbrev TaskId := ℕ
abbrev BlockId := ℕ

/-- `daisy.block.BlockStatus` (external collaborator, spec section 3/6). -/
inductive BlockStatus where
  | PENDING
  | PROCESSING
  | SUCCESS
  | FAILED
deriving DecidableEq

/-- Modelled from the spec: a Block carries its owning `task_id`, its
within-task `block_id`, and a mutable `status` (spec section 3 and 6). -/
structure Block where
  task_id : TaskId
  block_id : BlockId
  status : BlockStatus
deriving DecidableEq

/-- Python `Block.__eq__`: blocks are "hashable/comparable by
`(task_id, block_id)`" (spec section 6); `status` does not take part. -/
def Block.pyEq (a b : Block) : Bool :=
  a.task_id == b.task_id && a.block_id == b.block_id

/-- Embeds `TaskState.__init__`: all counters zero, `started` false. -/
structure TaskState where
  started : Bool := false
  ready_count : ℤ := 0
  total_block_count : ℤ := 0
  completed_count : ℤ := 0
  failed_count : ℤ := 0
  orphaned_count : ℤ := 0
  processing_count : ℤ := 0
deriving DecidableEq

instance : Inhabited TaskState := ⟨{}⟩

/-- Embeds `TaskBlocks.__init__`: the deque is a list (append at the tail,
popleft at the head), the four block-id collections are finite sets. -/
structure TaskBlocks where
  ready_queue : List Block := []
  processing_blocks : Finset BlockId := ∅
  failed_blocks : Finset BlockId := ∅
  orphaned_blocks : Finset BlockId := ∅
  completed_blocks : Finset BlockId := ∅
deriving DecidableEq

instance : Inhabited TaskBlocks := ⟨{}⟩

/-- Modelled from the spec: a Task has a unique `task_id` and a sequence of
required upstream tasks, `requires()` (spec section 3 and 6).  The
`pre_check` capability is passed separately to the operations that use it. -/
inductive DaisyTask where
  | mk (task_id : TaskId) (req : List DaisyTask)

def DaisyTask.task_id : DaisyTask → TaskId
  | .mk i _ => i

def DaisyTask.req : DaisyTask → List DaisyTask
  | .mk _ r => r

/-- Modelled from the spec: the dependency-graph collaborator
(`daisy/dependency_graph.py` is not part of the scheduler source under
verification).  Per spec section 6 it answers `roots()` — a mapping from each
root task id to its block count and its lazily produced block sequence, the
latter embedded as the finite list of blocks the sequence will yield —
`num_blocks`, and `upstream` / `downstream`, the immediate predecessor /
successor blocks.  The scheduler keys `upstream` and `downstream` by a bare
block id, so within the graph a block id determines a unique block; `owner`
records the owning task id of each block id (spec section 3: a block belongs
to exactly one task). -/
structure DependencyGraph where
  roots : TaskId → Option (ℤ × List Block)
  num_blocks : TaskId → ℕ
  upstream : BlockId → List Block
  downstream : BlockId → List Block
  owner : BlockId → TaskId

/-- The Python exceptions the scheduler's code paths can raise. -/
inductive PyErr where
  | keyError
  | typeError
  | attributeError
  | indexError
  | notImplementedError
  | recursionError
deriving DecidableEq

/-- The mutable state of a `Scheduler` object.  `task_map`, `task_states`,
`task_blocks`, `last_prechecked` embed the (default)dicts of `__init__`;
`completed_surface` is the completion frontier, a Python `set` into which the
code only ever inserts bare block ids but whose membership is also probed
with whole `Block` objects (`update_complete_surface`), hence the sum
element type; `root_seq` is the evolving suffix of each root task's lazy
block sequence (`self.root_tasks[task_id][1]`, a stateful generator).
`block_statuses` of `__init__` is never read or written by any method and is
omitted. -/
structure SchedState where
  task_map : TaskId → Option DaisyTask
  task_states : TaskId → TaskState
  task_blocks : TaskId → TaskBlocks
  completed_surface : Finset (BlockId ⊕ Block)
  root_seq : TaskId → List Block
  last_prechecked : TaskId → Option Block × Option Bool

/-- Pointwise update of a task-id-keyed dictionary. -/
def updFn {β : Type _} (f : TaskId → β) (i : TaskId) (b : β) : TaskId → β :=
  fun j => if j = i then b else f j

@[simp] theorem updFn_same {β : Type _} (f : TaskId → β) (i : TaskId) (b : β) :
    updFn f i b i = b := by simp [updFn]

def SchedState.setTB (s : SchedState) (t : TaskId) (tb : TaskBlocks) : SchedState :=
  { s with task_blocks := updFn s.task_blocks t tb }

def SchedState.setTS (s : SchedState) (t : TaskId) (ts : TaskState) : SchedState :=
  { s with task_states := updFn s.task_states t ts }

/-- The `updated_tasks` dict returned by `release_block` on the SUCCESS path
(`task_id -> TaskState`, insertion modelled as pointwise update). -/
abbrev UpdatedTasks := TaskId → Option TaskState

/-- The readiness test of `Scheduler.update_ready_queue` (source line 205):
`all(up.block_id in self.completed_surface for up in upstream_blocks)`.
The surface holds bare block ids, so the membership probe is on the left
injection. -/
def upstreamReady (G : DependencyGraph) (surf : Finset (BlockId ⊕ Block))
    (d : Block) : Bool :=
  (G.upstream d.block_id).all fun up => decide (Sum.inl up.block_id ∈ surf)

/-- Embeds `Scheduler.update_complete_surface` (source lines 189-198).
`self.completed_surface.add(block_id)` inserts the bare id (left injection);
the loop then probes `upstream_block not in self.completed_surface` with the
whole `Block` object returned by `dependency_graph.upstream` (right
injection), and likewise `down in self.completed_surface` for the results of
`dependency_graph.downstream`.  The `remove` in the else-branch removes the
probed `Block` object.  (The source also passes the block object itself to
`downstream` where every other call site passes a bare id; the query is keyed
here by its block id.) -/
def ucsStep (G : DependencyGraph) (st : SchedState) (up : Block) : SchedState :=
  if Sum.inr up ∈ st.completed_surface then
    if (G.downstream up.block_id).all
        (fun down => decide (Sum.inr down ∈ st.completed_surface)) then
      { st with completed_surface := st.completed_surface.erase (Sum.inr up) }
    else st
  else st

def update_complete_surface (G : DependencyGraph) (block_id : BlockId)
    (s : SchedState) : SchedState :=
  let s0 := { s with completed_surface := insert (Sum.inl block_id) s.completed_surface }
  (G.upstream block_id).foldl (ucsStep G) s0

/-- Embeds `Scheduler.update_ready_queue` (source lines 200-208): for each
immediate downstream block of `block_id`, if all of its upstream blocks' ids
are in the completed surface, append it to its owning task's ready queue and
record that task's current `TaskState` in the returned dict. -/
def urqStep (G : DependencyGraph) (acc : SchedState × UpdatedTasks)
    (down : Block) : SchedState × UpdatedTasks :=
  if upstreamReady G acc.1.completed_surface down then
    let st := acc.1.setTB down.task_id
      { acc.1.task_blocks down.task_id with
        ready_queue := (acc.1.task_blocks down.task_id).ready_queue ++ [down] }
    (st, updFn acc.2 down.task_id (some (st.task_states down.task_id)))
  else acc

def update_ready_queue (G : DependencyGraph) (block_id : BlockId)
    (s : SchedState) : SchedState × UpdatedTasks :=
  (G.downstream block_id).foldl (urqStep G) (s, fun _ => none)

/-- Embeds `Scheduler.update_failed_surface` (source lines 210-218).  Its
first statement, `self.task_blocks[block_id[0]].failed_blocks.append(block_id)`,
raises before anything else runs: `block_id` is a block's within-task id (an
integer, spec section 3), so subscripting it raises `TypeError`; even read
with a composite id, `failed_blocks` is a `set`, which has no `append`
(`AttributeError`), and the traversal's `self.task_blocks[orphan.task_id].add(...)`
would likewise raise, `TaskBlocks` having no `add` method.  The method
therefore always raises at its first statement, before touching any orphan
set or counter, and the downstream traversal (which also lacks a visited set
and would re-expand diamond-shaped dependencies) is unreachable. -/
def update_failed_surface (_G : DependencyGraph) (_block_id : BlockId)
    (s : SchedState) : PyErr × SchedState :=
  (PyErr.typeError, s)

/-- Embeds `Scheduler.release_block` (source lines 149-187).  An error value
carries the state at the moment of the raise (mutations already performed
persist).  On a status other than SUCCESS/FAILED the Python method falls off
the end and returns `None`, embedded as `none` in place of the dict. -/
def release_block (G : DependencyGraph) (block : Block) (s : SchedState) :
    Except (PyErr × SchedState) (SchedState × Option UpdatedTasks) :=
  let task_id := block.task_id
  if block.status = BlockStatus.SUCCESS then
    let tb := s.task_blocks task_id
    if block.block_id ∈ tb.processing_blocks then
      let s1 := s.setTB task_id
        { tb with processing_blocks := tb.processing_blocks.erase block.block_id,
                  completed_blocks := insert block.block_id tb.completed_blocks }
      let ts := s1.task_states task_id
      let s2 := s1.setTS task_id
        { ts with processing_count := ts.processing_count - 1,
                  completed_count := ts.completed_count + 1 }
      let s3 := update_complete_surface G block.block_id s2
      let r := update_ready_queue G block.block_id s3
      .ok (r.1, some r.2)
    else
      .error (PyErr.keyError, s)
  else if block.status = BlockStatus.FAILED then
    let tb := s.task_blocks task_id
    if block.block_id ∈ tb.processing_blocks then
      let s1 := s.setTB task_id
        { tb with processing_blocks := tb.processing_blocks.erase block.block_id,
                  failed_blocks := insert block.block_id tb.failed_blocks }
      let ts := s1.task_states task_id
      let s2 := s1.setTS task_id
        { ts with processing_count := ts.processing_count - 1,
                  failed_count := ts.failed_count + 1 }
      let r := update_failed_surface G block.block_id s2
      .error (r.1, r.2)
    else
      .error (PyErr.keyError, s)
  else
    .ok (s, none)

/-- Embeds `Scheduler.has_next` (source lines 92-107).  When the ready queue
is empty but `ready_count > 0`, the lookup `self.root_tasks[task_id]` raises
`KeyError` for a non-root task; otherwise `next()` on the root's lazy
sequence either yields the next block (appended to the ready queue) or, when
the sequence is exhausted, raises `StopIteration`, which the method converts
to `NotImplementedError`. -/
def has_next (G : DependencyGraph) (task_id : TaskId) (s : SchedState) :
    Except (PyErr × SchedState) (Bool × SchedState) :=
  if (s.task_blocks task_id).ready_queue.length > 0 then
    .ok (true, s)
  else if (s.task_states task_id).ready_count > 0 then
    match G.roots task_id with
    | none => .error (PyErr.keyError, s)
    | some _ =>
      match s.root_seq task_id with
      | [] => .error (PyErr.notImplementedError, s)
      | b :: rest =>
        let tb := s.task_blocks task_id
        let s1 := { s with
          root_seq := updFn s.root_seq task_id rest,
          task_blocks := updFn s.task_blocks task_id
            { tb with ready_queue := tb.ready_queue ++ [b] } }
        .ok (true, s1)
  else
    .ok (false, s)

/-- Embeds the guarded expression of `Scheduler.precheck` (source line 226):
`pre_check_ret = self.tasks[task_id]._daisy.pre_check(block)`.  Python
evaluates `self.tasks` first and raises `AttributeError`: the `Scheduler`
class defines `task_map` but no attribute named `tasks`.  The task's
`pre_check` capability (an explicit argument here, returning either a boolean
or a raised exception) is therefore never applied, and the result does not
depend on it. -/
def precheck_guarded_expr (_pre_check : Block → Except PyErr Bool)
    (_block : Block) : Except PyErr Bool :=
  .error PyErr.attributeError

/-- The cache-freshness test of `Scheduler.precheck` (source line 221):
`self.last_prechecked[task_id][0] != block`, with the defaultdict default
`(None, None)` and Python block equality by `(task_id, block_id)`. -/
def cacheMiss (cached : Option Block) (block : Block) : Bool :=
  match cached with
  | none => true
  | some cb => !(cb.pyEq block)

/-- Embeds `Scheduler.precheck` (source lines 220-238): on a cache miss the
guarded expression is evaluated, any exception is caught and converted to
`False`, and the `finally` clause stores `(block, result)` in the per-task
single-entry cache; the method returns `self.last_prechecked[task_id][1]`. -/
def precheck (pre_check : Block → Except PyErr Bool) (task_id : TaskId)
    (block : Block) (s : SchedState) : Option Bool × SchedState :=
  if cacheMiss (s.last_prechecked task_id).1 block then
    let ret : Bool :=
      match precheck_guarded_expr pre_check block with
      | .ok v => v
      | .error _ => false
    let s1 := { s with
      last_prechecked := updFn s.last_prechecked task_id (some block, some ret) }
    ((s1.last_prechecked task_id).2, s1)
  else
    ((s.last_prechecked task_id).2, s)

/-- Embeds `Scheduler.acquire_block` (source lines 109-147).  The `fuel`
argument bounds the self-call depth of the pre-check skip branch (source
line 136), mirroring Python's recursion limit: exhausting it raises
`RecursionError`.  `popleft` of an empty deque would raise `IndexError`
(unreachable after `has_next` returned true).  In the skip branch the popped
block's status is set to SUCCESS and the block is fed to `release_block`,
whose result dict is discarded and whose exception, if any, propagates. -/
def acquire_block (G : DependencyGraph) (pre_check : Block → Except PyErr Bool) :
    ℕ → TaskId → SchedState → Except (PyErr × SchedState) (Option Block × SchedState)
  | 0, _, s => .error (PyErr.recursionError, s)
  | fuel + 1, task_id, s =>
    match has_next G task_id s with
    | .error e => .error e
    | .ok (false, s1) => .ok (none, s1)
    | .ok (true, s1) =>
      match (s1.task_blocks task_id).ready_queue with
      | [] => .error (PyErr.indexError, s1)
      | block :: rest =>
        let s2 := s1.setTB task_id { s1.task_blocks task_id with ready_queue := rest }
        let pr := precheck pre_check task_id block s2
        if pr.1 = some true then
          let block' : Block := { block with status := BlockStatus.SUCCESS }
          match release_block G block' pr.2 with
          | .error e => .error e
          | .ok (s3, _) => acquire_block G pre_check fuel task_id s3
        else
          let ts := pr.2.task_states task_id
          let s3 := pr.2.setTS task_id
            { ts with started := ts.started || true,
                      processing_count := ts.processing_count + 1 }
          let tb := s3.task_blocks task_id
          let s4 := s3.setTB task_id
            { tb with processing_blocks := insert block.block_id tb.processing_blocks }
          .ok (some block, s4)

/-- The freshly constructed dictionaries of `Scheduler.__init__` (source
lines 60-75), before the `__init_task` loop runs: empty defaultdicts, empty
frontier, each root task's lazy sequence positioned at its start.
(`block_statuses` is constructed there too but never used by any method.) -/
def init_state (G : DependencyGraph) : SchedState :=
  { task_map := fun _ => none
    task_states := fun _ => {}
    task_blocks := fun _ => {}
    completed_surface := ∅
    root_seq := fun t =>
      match G.roots t with
      | some p => p.2
      | none => []
    last_prechecked := fun _ => (none, none) }

/-- Embeds `Scheduler.__init_task` (source lines 77-90).  For a task not yet
in `task_map` it records the task, sets `total_block_count` from the graph
and, for a root task, seeds `ready_count` from the root descriptor's block
count.  The loop over `task.requires()` then calls `self.add(upstream_task)`
— but `Scheduler` defines no method or attribute named `add`, so the first
iteration raises `AttributeError`; only a task whose `requires()` is empty
initializes without raising.  A raise during `__init__` aborts construction,
so the error carries no state. -/
def init_task (G : DependencyGraph) (t : DaisyTask) (s : SchedState) :
    Except PyErr SchedState :=
  if (s.task_map t.task_id).isSome then
    .ok s
  else
    let s1 := { s with task_map := updFn s.task_map t.task_id (some t) }
    let ts := s1.task_states t.task_id
    let s2 := s1.setTS t.task_id { ts with total_block_count := (G.num_blocks t.task_id : ℤ) }
    let s3 :=
      match G.roots t.task_id with
      | some p => s2.setTS t.task_id { s2.task_states t.task_id with ready_count := p.1 }
      | none => s2
    match t.req with
    | [] => .ok s3
    | _ :: _ => .error PyErr.attributeError

/-- The `for task in tasks: self.__init_task(task)` loop of
`Scheduler.__init__`. -/
def init_tasks (G : DependencyGraph) : List DaisyTask → SchedState →
    Except PyErr SchedState
  | [], s => .ok s
  | t :: ts, s =>
    match init_task G t s with
    | .ok s1 => init_tasks G ts s1
    | .error e => .error e

/-- Embeds `Scheduler.__init__` (source lines 60-75): build the fresh state
and run `__init_task` on every supplied task. -/
def sched_init (G : DependencyGraph) (tasks : List DaisyTask) :
    Except PyErr SchedState :=
  init_tasks G tasks (init_state G)

/-! ### Basic lemmas about the state helpers -/

@[simp] theorem updFn_apply {β : Type _} (f : TaskId → β) (i j : TaskId) (b : β) :
    updFn f i b j = if j = i then b else f j := rfl

@[simp] theorem setTB_task_blocks (s : SchedState) (t j : TaskId) (tb : TaskBlocks) :
    (s.setTB t tb).task_blocks j = if j = t then tb else s.task_blocks j := rfl

@[simp] theorem setTB_task_states (s : SchedState) (t : TaskId) (tb : TaskBlocks) :
    (s.setTB t tb).task_states = s.task_states := rfl

@[simp] theorem setTB_task_map (s : SchedState) (t : TaskId) (tb : TaskBlocks) :
    (s.setTB t tb).task_map = s.task_map := rfl

@[simp] theorem setTB_surface (s : SchedState) (t : TaskId) (tb : TaskBlocks) :
    (s.setTB t tb).completed_surface = s.completed_surface := rfl

@[simp] theorem setTB_root_seq (s : SchedState) (t : TaskId) (tb : TaskBlocks) :
    (s.setTB t tb).root_seq = s.root_seq := rfl

@[simp] theorem setTB_last_prechecked (s : SchedState) (t : TaskId) (tb : TaskBlocks) :
    (s.setTB t tb).last_prechecked = s.last_prechecked := rfl

@[simp] theorem setTS_task_states (s : SchedState) (t j : TaskId) (ts : TaskState) :
    (s.setTS t ts).task_states j = if j = t then ts else s.task_states j := rfl

@[simp] theorem setTS_task_blocks (s : SchedState) (t : TaskId) (ts : TaskState) :
    (s.setTS t ts).task_blocks = s.task_blocks := rfl

@[simp] theorem setTS_task_map (s : SchedState) (t : TaskId) (ts : TaskState) :
    (s.setTS t ts).task_map = s.task_map := rfl

@[simp] theorem setTS_surface (s : SchedState) (t : TaskId) (ts : TaskState) :
    (s.setTS t ts).completed_surface = s.completed_surface := rfl

@[simp] theorem setTS_root_seq (s : SchedState) (t : TaskId) (ts : TaskState) :
    (s.setTS t ts).root_seq = s.root_seq := rfl

@[simp] theorem setTS_last_prechecked (s : SchedState) (t : TaskId) (ts : TaskState) :
    (s.setTS t ts).last_prechecked = s.last_prechecked := rfl

/-! ### The frontier-update loop never fires

The completed surface only ever receives bare block ids (left injections),
while the removal guard of `update_complete_surface` probes it with whole
`Block` objects (right injections), so the guard is false at every iteration
and the loop leaves the state untouched. -/

/-- Every member of the frontier is a bare block id. -/
def InlOnly (surf : Finset (BlockId ⊕ Block)) : Prop :=
  ∀ x ∈ surf, ∃ j : BlockId, x = Sum.inl j

theorem InlOnly.insert {surf : Finset (BlockId ⊕ Block)} (h : InlOnly surf)
    (j : BlockId) : InlOnly (insert (Sum.inl j) surf) := by
  intro x hx
  rcases Finset.mem_insert.mp hx with hx | hx
  · exact ⟨j, hx⟩
  · exact h x hx

theorem ucsStep_eq_of_inlOnly (G : DependencyGraph) (st : SchedState) (up : Block)
    (h : InlOnly st.completed_surface) : ucsStep G st up = st := by
  unfold ucsStep
  rw [if_neg]
  intro hmem
  rcases h _ hmem with ⟨j, hj⟩
  exact Sum.noConfusion hj

theorem ucs_fold_eq_of_inlOnly (G : DependencyGraph) :
    ∀ (l : List Block) (st : SchedState), InlOnly st.completed_surface →
      l.foldl (ucsStep G) st = st := by
  intro l
  induction l with
  | nil => intro st _; rfl
  | cons up rest ih =>
    intro st h
    simp only [List.foldl_cons, ucsStep_eq_of_inlOnly G st up h]
    exact ih st h

theorem update_complete_surface_eq (G : DependencyGraph) (i : BlockId)
    (s : SchedState) (h : InlOnly s.completed_surface) :
    update_complete_surface G i s =
      { s with completed_surface := insert (Sum.inl i) s.completed_surface } := by
  unfold update_complete_surface
  exact ucs_fold_eq_of_inlOnly G _ _ (h.insert i)

/-! ### Characterisation of the readiness-propagation loop -/

/-- The blocks `update_ready_queue` appends to task `t`'s ready queue, given
the downstream list and the frontier at entry. -/
def readyAdds (G : DependencyGraph) (surf : Finset (BlockId ⊕ Block))
    (l : List Block) (t : TaskId) : List Block :=
  l.filter fun d => decide (d.task_id = t) && upstreamReady G surf d


theorem urqStep_task_map (G : DependencyGraph) (acc : SchedState × UpdatedTasks)
    (d : Block) : (urqStep G acc d).1.task_map = acc.1.task_map := by
  unfold urqStep; split <;> rfl

theorem urqStep_task_states (G : DependencyGraph) (acc : SchedState × UpdatedTasks)
    (d : Block) : (urqStep G acc d).1.task_states = acc.1.task_states := by
  unfold urqStep; split <;> rfl

theorem urqStep_surface (G : DependencyGraph) (acc : SchedState × UpdatedTasks)
    (d : Block) : (urqStep G acc d).1.completed_surface = acc.1.completed_surface := by
  unfold urqStep; split <;> rfl

theorem urqStep_root_seq (G : DependencyGraph) (acc : SchedState × UpdatedTasks)
    (d : Block) : (urqStep G acc d).1.root_seq = acc.1.root_seq := by
  unfold urqStep; split <;> rfl

theorem urqStep_last_prechecked (G : DependencyGraph) (acc : SchedState × UpdatedTasks)
    (d : Block) : (urqStep G acc d).1.last_prechecked = acc.1.last_prechecked := by
  unfold urqStep; split <;> rfl

theorem urqStep_processing (G : DependencyGraph) (acc : SchedState × UpdatedTasks)
    (d : Block) (t : TaskId) :
    ((urqStep G acc d).1.task_blocks t).processing_blocks =
      (acc.1.task_blocks t).processing_blocks := by
  unfold urqStep
  split
  · by_cases ht : t = d.task_id <;> simp [ht]
  · rfl

theorem urqStep_failed (G : DependencyGraph) (acc : SchedState × UpdatedTasks)
    (d : Block) (t : TaskId) :
    ((urqStep G acc d).1.task_blocks t).failed_blocks =
      (acc.1.task_blocks t).failed_blocks := by
  unfold urqStep
  split
  · by_cases ht : t = d.task_id <;> simp [ht]
  · rfl

theorem urqStep_orphaned (G : DependencyGraph) (acc : SchedState × UpdatedTasks)
    (d : Block) (t : TaskId) :
    ((urqStep G acc d).1.task_blocks t).orphaned_blocks =
      (acc.1.task_blocks t).orphaned_blocks := by
  unfold urqStep
  split
  · by_cases ht : t = d.task_id <;> simp [ht]
  · rfl

theorem urqStep_completed (G : DependencyGraph) (acc : SchedState × UpdatedTasks)
    (d : Block) (t : TaskId) :
    ((urqStep G acc d).1.task_blocks t).completed_blocks =
      (acc.1.task_blocks t).completed_blocks := by
  unfold urqStep
  split
  · by_cases ht : t = d.task_id <;> simp [ht]
  · rfl

theorem urqStep_queue (G : DependencyGraph) (acc : SchedState × UpdatedTasks)
    (d : Block) (t : TaskId) :
    ((urqStep G acc d).1.task_blocks t).ready_queue =
      (acc.1.task_blocks t).ready_queue ++
        (if decide (d.task_id = t) && upstreamReady G acc.1.completed_surface d
         then [d] else []) := by
  unfold urqStep
  by_cases h : upstreamReady G acc.1.completed_surface d
  · rw [if_pos h]
    by_cases ht : t = d.task_id
    · subst ht
      simp [h]
    · have : ¬(d.task_id = t) := fun hh => ht hh.symm
      simp [this, ht]
  · rw [if_neg h]
    simp [h]

theorem urqStep_dict (G : DependencyGraph) (acc : SchedState × UpdatedTasks)
    (d : Block) (t : TaskId) :
    (urqStep G acc d).2 t =
      if decide (d.task_id = t) && upstreamReady G acc.1.completed_surface d
      then some (acc.1.task_states t) else acc.2 t := by
  unfold urqStep
  by_cases h : upstreamReady G acc.1.completed_surface d
  · rw [if_pos h]
    by_cases ht : t = d.task_id
    · subst ht
      simp [h, SchedState.setTB]
    · have : ¬(d.task_id = t) := fun hh => ht hh.symm
      simp [this, ht]
  · rw [if_neg h]
    simp [h]

theorem readyAdds_cons (G : DependencyGraph) (surf : Finset (BlockId ⊕ Block))
    (d : Block) (rest : List Block) (t : TaskId) :
    readyAdds G surf (d :: rest) t =
      (if decide (d.task_id = t) && upstreamReady G surf d then [d] else []) ++
        readyAdds G surf rest t := by
  unfold readyAdds
  rw [List.filter_cons]
  split <;> simp

theorem urq_fold_task_map (G : DependencyGraph) :
    ∀ (l : List Block) (acc : SchedState × UpdatedTasks),
      (l.foldl (urqStep G) acc).1.task_map = acc.1.task_map := by
  intro l
  induction l with
  | nil => intro acc; rfl
  | cons d rest ih =>
    intro acc
    rw [List.foldl_cons, ih, urqStep_task_map]

theorem urq_fold_task_states (G : DependencyGraph) :
    ∀ (l : List Block) (acc : SchedState × UpdatedTasks),
      (l.foldl (urqStep G) acc).1.task_states = acc.1.task_states := by
  intro l
  induction l with
  | nil => intro acc; rfl
  | cons d rest ih =>
    intro acc
    rw [List.foldl_cons, ih, urqStep_task_states]

theorem urq_fold_surface (G : DependencyGraph) :
    ∀ (l : List Block) (acc : SchedState × UpdatedTasks),
      (l.foldl (urqStep G) acc).1.completed_surface = acc.1.completed_surface := by
  intro l
  induction l with
  | nil => intro acc; rfl
  | cons d rest ih =>
    intro acc
    rw [List.foldl_cons, ih, urqStep_surface]

theorem urq_fold_root_seq (G : DependencyGraph) :
    ∀ (l : List Block) (acc : SchedState × UpdatedTasks),
      (l.foldl (urqStep G) acc).1.root_seq = acc.1.root_seq := by
  intro l
  induction l with
  | nil => intro acc; rfl
  | cons d rest ih =>
    intro acc
    rw [List.foldl_cons, ih, urqStep_root_seq]

theorem urq_fold_last_prechecked (G : DependencyGraph) :
    ∀ (l : List Block) (acc : SchedState × UpdatedTasks),
      (l.foldl (urqStep G) acc).1.last_prechecked = acc.1.last_prechecked := by
  intro l
  induction l with
  | nil => intro acc; rfl
  | cons d rest ih =>
    intro acc
    rw [List.foldl_cons, ih, urqStep_last_prechecked]

theorem urq_fold_processing (G : DependencyGraph) :
    ∀ (l : List Block) (acc : SchedState × UpdatedTasks) (t : TaskId),
      ((l.foldl (urqStep G) acc).1.task_blocks t).processing_blocks =
        (acc.1.task_blocks t).processing_blocks := by
  intro l
  induction l with
  | nil => intro acc t; rfl
  | cons d rest ih =>
    intro acc t
    rw [List.foldl_cons, ih, urqStep_processing]

theorem urq_fold_failed (G : DependencyGraph) :
    ∀ (l : List Block) (acc : SchedState × UpdatedTasks) (t : TaskId),
      ((l.foldl (urqStep G) acc).1.task_blocks t).failed_blocks =
        (acc.1.task_blocks t).failed_blocks := by
  intro l
  induction l with
  | nil => intro acc t; rfl
  | cons d rest ih =>
    intro acc t
    rw [List.foldl_cons, ih, urqStep_failed]

theorem urq_fold_orphaned (G : DependencyGraph) :
    ∀ (l : List Block) (acc : SchedState × UpdatedTasks) (t : TaskId),
      ((l.foldl (urqStep G) acc).1.task_blocks t).orphaned_blocks =
        (acc.1.task_blocks t).orphaned_blocks := by
  intro l
  induction l with
  | nil => intro acc t; rfl
  | cons d rest ih =>
    intro acc t
    rw [List.foldl_cons, ih, urqStep_orphaned]

theorem urq_fold_completed (G : DependencyGraph) :
    ∀ (l : List Block) (acc : SchedState × UpdatedTasks) (t : TaskId),
      ((l.foldl (urqStep G) acc).1.task_blocks t).completed_blocks =
        (acc.1.task_blocks t).completed_blocks := by
  intro l
  induction l with
  | nil => intro acc t; rfl
  | cons d rest ih =>
    intro acc t
    rw [List.foldl_cons, ih, urqStep_completed]

theorem urq_fold_queue (G : DependencyGraph) :
    ∀ (l : List Block) (acc : SchedState × UpdatedTasks) (t : TaskId),
      ((l.foldl (urqStep G) acc).1.task_blocks t).ready_queue =
        (acc.1.task_blocks t).ready_queue ++
          readyAdds G acc.1.completed_surface l t := by
  intro l
  induction l with
  | nil => intro acc t; simp [readyAdds]
  | cons d rest ih =>
    intro acc t
    rw [List.foldl_cons, ih, urqStep_surface, urqStep_queue, readyAdds_cons,
      List.append_assoc]

theorem urq_fold_dict (G : DependencyGraph) :
    ∀ (l : List Block) (acc : SchedState × UpdatedTasks) (t : TaskId),
      (l.foldl (urqStep G) acc).2 t =
        if readyAdds G acc.1.completed_surface l t = [] then acc.2 t
        else some (acc.1.task_states t) := by
  intro l
  induction l with
  | nil => intro acc t; simp [readyAdds]
  | cons d rest ih =>
    intro acc t
    rw [List.foldl_cons, ih, urqStep_surface, urqStep_task_states, urqStep_dict,
      readyAdds_cons]
    by_cases hp : (decide (d.task_id = t) && upstreamReady G acc.1.completed_surface d) = true
    · rw [if_pos hp]
      have hne : (if decide (d.task_id = t) && upstreamReady G acc.1.completed_surface d
          then [d] else []) ++ readyAdds G acc.1.completed_surface rest t ≠ [] := by
        rw [if_pos hp]
        simp
      rw [if_neg hne]
      split <;> rfl
    · have hp' : (decide (d.task_id = t) && upstreamReady G acc.1.completed_surface d) = false :=
        Bool.not_eq_true _ ▸ hp
      rw [if_neg hp]
      rw [hp']
      simp

theorem update_ready_queue_queue (G : DependencyGraph) (i : BlockId)
    (s : SchedState) (t : TaskId) :
    (((update_ready_queue G i s).1.task_blocks t)).ready_queue =
      (s.task_blocks t).ready_queue ++
        readyAdds G s.completed_surface (G.downstream i) t :=
  urq_fold_queue G (G.downstream i) (s, fun _ => none) t

theorem update_ready_queue_dict (G : DependencyGraph) (i : BlockId)
    (s : SchedState) (t : TaskId) :
    (update_ready_queue G i s).2 t =
      if readyAdds G s.completed_surface (G.downstream i) t = [] then none
      else some (s.task_states t) :=
  urq_fold_dict G (G.downstream i) (s, fun _ => none) t

theorem mem_readyAdds (G : DependencyGraph) (surf : Finset (BlockId ⊕ Block))
    (l : List Block) (t : TaskId) (d : Block) :
    d ∈ readyAdds G surf l t ↔
      d ∈ l ∧ d.task_id = t ∧ upstreamReady G surf d = true := by
  simp [readyAdds, List.mem_filter, and_assoc]

theorem upstreamReady_iff (G : DependencyGraph) (surf : Finset (BlockId ⊕ Block))
    (d : Block) :
    upstreamReady G surf d = true ↔
      ∀ up ∈ G.upstream d.block_id, Sum.inl up.block_id ∈ surf := by
  simp [upstreamReady, List.all_eq_true]

/-- `release_block` with a SUCCESS or FAILED status begins with
`processing_blocks.remove(block.block_id)`, so for a block id not in the set
it raises `KeyError` before any mutation: the error carries the entry state
unchanged. -/
theorem release_block_missing_processing (G : DependencyGraph) (s : SchedState)
    (b : Block)
    (hst : b.status = BlockStatus.SUCCESS ∨ b.status = BlockStatus.FAILED)
    (hmem : b.block_id ∉ (s.task_blocks b.task_id).processing_blocks) :
    release_block G b s = .error (PyErr.keyError, s) := by
  rcases hst with h | h <;> simp [release_block, h, hmem]

/-- The state `release_block` has built when, on the FAILED path, it calls
`update_failed_surface`: the block id moved from `processing_blocks` to
`failed_blocks` and the two counters adjusted. -/
def failedMid (b : Block) (s : SchedState) : SchedState :=
  { s with
    task_blocks := updFn s.task_blocks b.task_id
      { s.task_blocks b.task_id with
        processing_blocks := (s.task_blocks b.task_id).processing_blocks.erase b.block_id,
        failed_blocks := insert b.block_id (s.task_blocks b.task_id).failed_blocks },
    task_states := updFn s.task_states b.task_id
      { s.task_states b.task_id with
        processing_count := (s.task_states b.task_id).processing_count - 1,
        failed_count := (s.task_states b.task_id).failed_count + 1 } }

/-- On the FAILED path with the block id present, `release_block` performs
the two set moves and counter updates and then raises inside
`update_failed_surface`. -/
theorem release_failed_raises (G : DependencyGraph) (s : SchedState) (b : Block)
    (hst : b.status = BlockStatus.FAILED)
    (hmem : b.block_id ∈ (s.task_blocks b.task_id).processing_blocks) :
    release_block G b s = .error (PyErr.typeError, failedMid b s) := by
  unfold release_block
  rw [hst]
  simp only [show (BlockStatus.FAILED = BlockStatus.SUCCESS) = False by simp,
    if_false, if_true, reduceCtorEq]
  rw [if_pos hmem]
  rfl

/-- The state `release_block` has built on the SUCCESS path just before it
calls `update_complete_surface`: the block id moved from `processing_blocks`
to `completed_blocks` and the two counters adjusted. -/
def preMid (b : Block) (s : SchedState) : SchedState :=
  { s with
    task_blocks := updFn s.task_blocks b.task_id
      { s.task_blocks b.task_id with
        processing_blocks := (s.task_blocks b.task_id).processing_blocks.erase b.block_id,
        completed_blocks := insert b.block_id (s.task_blocks b.task_id).completed_blocks },
    task_states := updFn s.task_states b.task_id
      { s.task_states b.task_id with
        processing_count := (s.task_states b.task_id).processing_count - 1,
        completed_count := (s.task_states b.task_id).completed_count + 1 } }

/-- `preMid` followed by the frontier insertion. -/
def successMid (b : Block) (s : SchedState) : SchedState :=
  { preMid b s with
    completed_surface := insert (Sum.inl b.block_id) s.completed_surface }

/-- On the SUCCESS path with the block id present, `release_block` is the
bookkeeping of `preMid`, then `update_complete_surface`, then
`update_ready_queue`. -/
theorem release_success_raw (G : DependencyGraph) (s : SchedState) (b : Block)
    (hst : b.status = BlockStatus.SUCCESS)
    (hmem : b.block_id ∈ (s.task_blocks b.task_id).processing_blocks) :
    release_block G b s =
      .ok ((update_ready_queue G b.block_id
              (update_complete_surface G b.block_id (preMid b s))).1,
           some (update_ready_queue G b.block_id
              (update_complete_surface G b.block_id (preMid b s))).2) := by
  unfold release_block
  rw [hst]
  rw [if_pos rfl]
  rw [if_pos hmem]
  rfl

/-- With only bare ids in the frontier, the frontier-removal loop never
fires, so the SUCCESS path reduces to `successMid` followed by
`update_ready_queue`. -/
theorem release_success_eq (G : DependencyGraph) (s : SchedState) (b : Block)
    (hst : b.status = BlockStatus.SUCCESS)
    (hmem : b.block_id ∈ (s.task_blocks b.task_id).processing_blocks)
    (hinl : InlOnly s.completed_surface) :
    release_block G b s =
      .ok ((update_ready_queue G b.block_id (successMid b s)).1,
           some (update_ready_queue G b.block_id (successMid b s)).2) := by
  rw [release_success_raw G s b hst hmem]
  rw [update_complete_surface_eq G b.block_id (preMid b s) hinl]
  rfl

/-- A minimal dependency graph used to instantiate hypotheses of the claim
theorems at concrete inputs: no roots, no edges. -/
def Gtriv : DependencyGraph :=
  { roots := fun _ => none
    num_blocks := fun _ => 0
    upstream := fun _ => []
    downstream := fun _ => []
    owner := fun _ => 0 }

/-- A concrete state in which block id 7 of task 0 is processing. -/
def sProc7 : SchedState :=
  { init_state Gtriv with
    task_blocks := updFn (init_state Gtriv).task_blocks 0
      { processing_blocks := {7} } }

/-- C6: for every block whose `block_id` is not in its task's
`processing_blocks`, `release_block` with status SUCCESS or FAILED raises a
distinct error (`KeyError`, from `set.remove`) and the error carries the
scheduler state unchanged: no counter, no per-task block collection and no
frontier membership was modified before the raise. -/
theorem release_unknown_block_rejected (G : DependencyGraph) (s : SchedState)
    (b : Block)
    (hst : b.status = BlockStatus.SUCCESS ∨ b.status = BlockStatus.FAILED)
    (hmem : b.block_id ∉ (s.task_blocks b.task_id).processing_blocks) :
    release_block G b s = .error (PyErr.keyError, s) :=
  release_block_missing_processing G s b hst hmem

/-- Witness for C6 at a concrete input: releasing block 5 of task 0 as
SUCCESS on a fresh scheduler state raises `KeyError` with the state
untouched. -/
theorem release_unknown_block_rejected_witness :
    release_block Gtriv ⟨0, 5, BlockStatus.SUCCESS⟩ (init_state Gtriv) =
      .error (PyErr.keyError, init_state Gtriv) :=
  release_unknown_block_rejected Gtriv (init_state Gtriv)
    ⟨0, 5, BlockStatus.SUCCESS⟩ (Or.inl rfl) (by decide)

/-- C7 (code bug): for a block currently in `processing_blocks`, the FAILED
path of `release_block` does move the block id from `processing_blocks` to
`failed_blocks` and adjust `processing_count`/`failed_count`, but it then
raises inside `update_failed_surface` instead of running the orphan cascade,
and never returns any mapping (empty or otherwise). -/
theorem release_failed_path_raises (G : DependencyGraph) (s : SchedState)
    (b : Block)
    (hst : b.status = BlockStatus.FAILED)
    (hmem : b.block_id ∈ (s.task_blocks b.task_id).processing_blocks) :
    ∃ s', release_block G b s = .error (PyErr.typeError, s') ∧
      (s'.task_blocks b.task_id).processing_blocks =
        (s.task_blocks b.task_id).processing_blocks.erase b.block_id ∧
      (s'.task_blocks b.task_id).failed_blocks =
        insert b.block_id (s.task_blocks b.task_id).failed_blocks ∧
      (s'.task_states b.task_id).processing_count =
        (s.task_states b.task_id).processing_count - 1 ∧
      (s'.task_states b.task_id).failed_count =
        (s.task_states b.task_id).failed_count + 1 ∧
      ∀ m, release_block G b s ≠ .ok m := by
  refine ⟨failedMid b s, release_failed_raises G s b hst hmem, ?_, ?_, ?_, ?_, ?_⟩
  · simp [failedMid]
  · simp [failedMid]
  · simp [failedMid]
  · simp [failedMid]
  · intro m h
    rw [release_failed_raises G s b hst hmem] at h
    exact Except.noConfusion h

/-- Witness for C7 at a concrete input: releasing processing block 7 of task
0 as FAILED raises rather than returning the empty mapping. -/
theorem release_failed_path_raises_witness :
    ∃ s', release_block Gtriv ⟨0, 7, BlockStatus.FAILED⟩ sProc7 =
        .error (PyErr.typeError, s') ∧
      (s'.task_blocks 0).processing_blocks =
        ((sProc7.task_blocks 0).processing_blocks).erase 7 ∧
      (s'.task_blocks 0).failed_blocks =
        insert 7 (sProc7.task_blocks 0).failed_blocks ∧
      (s'.task_states 0).processing_count =
        (sProc7.task_states 0).processing_count - 1 ∧
      (s'.task_states 0).failed_count =
        (sProc7.task_states 0).failed_count + 1 ∧
      ∀ m, release_block Gtriv ⟨0, 7, BlockStatus.FAILED⟩ sProc7 ≠ .ok m :=
  release_failed_path_raises Gtriv sProc7 ⟨0, 7, BlockStatus.FAILED⟩ rfl (by decide)

/-- C3 (code bug): releasing a processing block as FAILED raises at the
first statement of `update_failed_surface`, so the downstream traversal
never runs: no block is ever added to any task's orphaned set and no
`orphaned_count` is ever incremented. -/
theorem failed_cascade_marks_no_orphans (G : DependencyGraph) (s : SchedState)
    (b : Block)
    (hst : b.status = BlockStatus.FAILED)
    (hmem : b.block_id ∈ (s.task_blocks b.task_id).processing_blocks) :
    ∃ s', release_block G b s = .error (PyErr.typeError, s') ∧
      (∀ t, (s'.task_blocks t).orphaned_blocks = (s.task_blocks t).orphaned_blocks) ∧
      (∀ t, (s'.task_states t).orphaned_count = (s.task_states t).orphaned_count) := by
  refine ⟨failedMid b s, release_failed_raises G s b hst hmem, ?_, ?_⟩
  · intro t
    by_cases ht : t = b.task_id <;> simp [failedMid, ht]
  · intro t
    by_cases ht : t = b.task_id <;> simp [failedMid, ht]

/-- A concrete state in which block id 3 of task 1 is processing, and the
graph gives block 3 a downstream block (which the intended cascade would
orphan). -/
def Gdown : DependencyGraph :=
  { Gtriv with downstream := fun i => if i = 3 then [⟨2, 4, BlockStatus.PENDING⟩] else [] }

def sProc3 : SchedState :=
  { init_state Gdown with
    task_blocks := updFn (init_state Gdown).task_blocks 1
      { processing_blocks := {3} } }

/-- Witness for C3 at a concrete input: failing block 3 of task 1, whose
downstream contains a block of task 2, orphans nothing anywhere. -/
theorem failed_cascade_marks_no_orphans_witness :
    ∃ s', release_block Gdown ⟨1, 3, BlockStatus.FAILED⟩ sProc3 =
        .error (PyErr.typeError, s') ∧
      (∀ t, (s'.task_blocks t).orphaned_blocks = (sProc3.task_blocks t).orphaned_blocks) ∧
      (∀ t, (s'.task_states t).orphaned_count = (sProc3.task_states t).orphaned_count) :=
  failed_cascade_marks_no_orphans Gdown sProc3 ⟨1, 3, BlockStatus.FAILED⟩ rfl (by decide)

/-- `Block.pyEq` is reflexive. -/
theorem Block.pyEq_self (b : Block) : b.pyEq b = true := by
  simp [Block.pyEq]

/-- On a cache hit `precheck` returns the cached value without touching the
state (no re-evaluation). -/
theorem precheck_hit (cap : Block → Except PyErr Bool) (t : TaskId) (b : Block)
    (s : SchedState) (hcm : cacheMiss (s.last_prechecked t).1 b = false) :
    precheck cap t b s = ((s.last_prechecked t).2, s) := by
  simp [precheck, hcm]

/-- On a cache miss `precheck` evaluates the guarded expression, converts a
raised exception to `False`, stores `(block, result)` and returns the stored
result. -/
theorem precheck_miss (cap : Block → Except PyErr Bool) (t : TaskId) (b : Block)
    (s : SchedState) (hcm : cacheMiss (s.last_prechecked t).1 b = true) :
    precheck cap t b s =
      (some false,
       { s with last_prechecked := updFn s.last_prechecked t (some b, some false) }) := by
  simp [precheck, hcm, precheck_guarded_expr]

/-- C5: an exception raised during the guarded pre-check evaluation is
caught, recorded as `False` in the per-task single-entry cache, and returned
as `False` — never propagated (the function is total).  An immediately
repeated query for the same block answers from the cache with the state
unchanged (no re-evaluation), while a query for a different (cache-missing)
block always re-evaluates, overwriting the cache with the new pair. -/
theorem precheck_catches_and_caches (cap : Block → Except PyErr Bool)
    (t : TaskId) (b : Block) (s : SchedState) (e : PyErr)
    (hraise : precheck_guarded_expr cap b = .error e)
    (hmiss : cacheMiss (s.last_prechecked t).1 b = true) :
    precheck cap t b s =
      (some false,
       { s with last_prechecked := updFn s.last_prechecked t (some b, some false) }) ∧
    (∀ s₂ : SchedState, s₂.last_prechecked t = (some b, some false) →
      precheck cap t b s₂ = (some false, s₂)) ∧
    (∀ (cap₂ : Block → Except PyErr Bool) (b₂ : Block) (s₂ : SchedState),
      cacheMiss (s₂.last_prechecked t).1 b₂ = true →
      ∃ r : Bool, precheck cap₂ t b₂ s₂ =
        (some r,
         { s₂ with last_prechecked := updFn s₂.last_prechecked t (some b₂, some r) })) := by
  refine ⟨precheck_miss cap t b s hmiss, ?_, ?_⟩
  · intro s₂ h
    rw [precheck_hit cap t b s₂ (by rw [h]; simp [cacheMiss, Block.pyEq_self]), h]
  · intro cap₂ b₂ s₂ h
    exact ⟨false, precheck_miss cap₂ t b₂ s₂ h⟩

/-- Witness for C5 at a concrete input: a capability that raises is never
the reason precheck fails — the result is `False`, cached. -/
theorem precheck_catches_and_caches_witness :
    precheck (fun _ => .error PyErr.typeError) 0 ⟨0, 1, BlockStatus.PENDING⟩
        (init_state Gtriv) =
      (some false,
       { init_state Gtriv with
         last_prechecked := updFn (init_state Gtriv).last_prechecked 0
           (some ⟨0, 1, BlockStatus.PENDING⟩, some false) }) :=
  (precheck_catches_and_caches (fun _ => .error PyErr.typeError) 0
    ⟨0, 1, BlockStatus.PENDING⟩ (init_state Gtriv) PyErr.attributeError rfl rfl).1

/-- C9: on any cache miss, `precheck` returns `False` and caches
`(block, False)`: the guarded expression `self.tasks[task_id]` raises
`AttributeError` (the scheduler defines `task_map`, not `tasks`) before the
`pre_check` capability could be applied, so the result does not depend on
the capability at all, and `acquire_block`'s skip branch cannot be entered
from a freshly queried block. -/
theorem precheck_fresh_always_false (cap : Block → Except PyErr Bool)
    (t : TaskId) (b : Block) (s : SchedState)
    (hmiss : cacheMiss (s.last_prechecked t).1 b = true) :
    (precheck cap t b s).1 = some false ∧
    (precheck cap t b s).2.last_prechecked t = (some b, some false) ∧
    ∀ cap₂ : Block → Except PyErr Bool, precheck cap₂ t b s = precheck cap t b s := by
  refine ⟨?_, ?_, fun _ => rfl⟩
  · rw [precheck_miss cap t b s hmiss]
  · rw [precheck_miss cap t b s hmiss]
    simp

/-- Witness for C9 at a concrete input: a capability that would report
"already done" is ignored — the fresh query still returns `False`. -/
theorem precheck_fresh_always_false_witness :
    (precheck (fun _ => .ok true) 2 ⟨2, 9, BlockStatus.PENDING⟩
        (init_state Gtriv)).1 = some false ∧
    (precheck (fun _ => .ok true) 2 ⟨2, 9, BlockStatus.PENDING⟩
        (init_state Gtriv)).2.last_prechecked 2 =
      (some ⟨2, 9, BlockStatus.PENDING⟩, some false) ∧
    ∀ cap₂ : Block → Except PyErr Bool,
      precheck cap₂ 2 ⟨2, 9, BlockStatus.PENDING⟩ (init_state Gtriv) =
        precheck (fun _ => .ok true) 2 ⟨2, 9, BlockStatus.PENDING⟩ (init_state Gtriv) :=
  precheck_fresh_always_false (fun _ => .ok true) 2 ⟨2, 9, BlockStatus.PENDING⟩
    (init_state Gtriv) rfl

/-- C4 (code bug): whenever `precheck` reports true for the block just popped
from the ready queue, `acquire_block`'s skip branch marks it SUCCESS and
feeds it to `release_block` — but a queued block was never added to
`processing_blocks`, so `release_block` raises `KeyError`: the exception
propagates out of `acquire_block`, the block's completion is never recorded
(`completed_blocks` and every counter untouched), and no next ready block is
tried.  (A true pre-check needs a cache primed with `(block, true)`; the
`self.tasks` typo means a freshly evaluated pre-check can never produce it.) -/
theorem skip_branch_raises_keyerror (G : DependencyGraph)
    (cap : Block → Except PyErr Bool) (fuel : ℕ) (t : TaskId) (s : SchedState)
    (b : Block) (rest : List Block)
    (hq : (s.task_blocks t).ready_queue = b :: rest)
    (hcache : s.last_prechecked t = (some b, some true))
    (hmem : b.block_id ∉ (s.task_blocks b.task_id).processing_blocks) :
    ∃ s', acquire_block G cap (fuel + 1) t s = .error (PyErr.keyError, s') ∧
      s'.task_states = s.task_states ∧
      (∀ u, (s'.task_blocks u).completed_blocks = (s.task_blocks u).completed_blocks) ∧
      (∀ u, (s'.task_blocks u).processing_blocks = (s.task_blocks u).processing_blocks) := by
  have hhn : has_next G t s = .ok (true, s) := by
    unfold has_next
    rw [hq]
    simp
  refine ⟨s.setTB t { s.task_blocks t with ready_queue := rest }, ?_, rfl, ?_, ?_⟩
  · have hcm : cacheMiss
        (((s.setTB t { s.task_blocks t with ready_queue := rest }).last_prechecked t)).1
        b = false := by
      rw [setTB_last_prechecked, hcache]
      simp [cacheMiss, Block.pyEq_self]
    have hpr : precheck cap t b (s.setTB t { s.task_blocks t with ready_queue := rest }) =
        (some true, s.setTB t { s.task_blocks t with ready_queue := rest }) := by
      rw [precheck_hit cap t b _ hcm, setTB_last_prechecked, hcache]
    have hmem' : b.block_id ∉
        ((s.setTB t { s.task_blocks t with ready_queue := rest }).task_blocks
          b.task_id).processing_blocks := by
      rw [setTB_task_blocks]
      by_cases ht : b.task_id = t
      · rw [if_pos ht]
        simpa [ht] using hmem
      · rw [if_neg ht]
        exact hmem
    have hrel : release_block G { b with status := BlockStatus.SUCCESS }
        (s.setTB t { s.task_blocks t with ready_queue := rest }) =
        .error (PyErr.keyError, s.setTB t { s.task_blocks t with ready_queue := rest }) :=
      release_block_missing_processing G _ _ (Or.inl rfl) hmem'
    simp only [acquire_block]
    rw [hhn]
    simp only [SchedState.setTB] at hpr hrel ⊢
    rw [hq]
    simp only [hpr, hrel]
    rfl
  · intro u
    rw [setTB_task_blocks]
    by_cases hu : u = t <;> simp [hu]
  · intro u
    rw [setTB_task_blocks]
    by_cases hu : u = t <;> simp [hu]

/-- A concrete state whose pre-check cache is primed `(block, true)` for the
block at the head of task 0's ready queue. -/
def sSkip : SchedState :=
  { init_state Gtriv with
    task_blocks := updFn (init_state Gtriv).task_blocks 0
      { ready_queue := [⟨0, 1, BlockStatus.PENDING⟩] },
    last_prechecked := updFn (init_state Gtriv).last_prechecked 0
      (some ⟨0, 1, BlockStatus.PENDING⟩, some true) }

/-- Witness for C4 at a concrete input: with the cache primed true for the
queued block, `acquire_block` raises `KeyError` and records no completion. -/
theorem skip_branch_raises_keyerror_witness :
    ∃ s', acquire_block Gtriv (fun _ => .ok false) 1 0 sSkip =
        .error (PyErr.keyError, s') ∧
      s'.task_states = sSkip.task_states ∧
      (∀ u, (s'.task_blocks u).completed_blocks = (sSkip.task_blocks u).completed_blocks) ∧
      (∀ u, (s'.task_blocks u).processing_blocks = (sSkip.task_blocks u).processing_blocks) :=
  skip_branch_raises_keyerror Gtriv (fun _ => .ok false) 0 0 sSkip
    ⟨0, 1, BlockStatus.PENDING⟩ [] rfl rfl (by decide)

/-! ### The three-task chain scenario of spec section 8

Task 0 (A) is a root with two blocks (ids 0 and 1); task 1 (B) has one block
(id 2) depending on both A blocks; task 2 (C) has one block (id 3) depending
on B's block. -/

def blkA1 : Block := ⟨0, 0, BlockStatus.PENDING⟩
def blkA2 : Block := ⟨0, 1, BlockStatus.PENDING⟩
def blkB1 : Block := ⟨1, 2, BlockStatus.PENDING⟩
def blkC1 : Block := ⟨2, 3, BlockStatus.PENDING⟩

def Gchain : DependencyGraph :=
  { roots := fun t => if t = 0 then some (2, [blkA1, blkA2]) else none
    num_blocks := fun t => if t = 0 then 2 else 1
    upstream := fun i =>
      if i = 2 then [blkA1, blkA2] else if i = 3 then [blkB1] else []
    downstream := fun i =>
      if i = 0 then [blkB1] else if i = 1 then [blkB1]
      else if i = 2 then [blkC1] else []
    owner := fun i => if i ≤ 1 then 0 else if i = 2 then 1 else 2 }

/-- The supplied task list.  (`requires()` is left empty for every task:
`Scheduler.__init_task` would raise `AttributeError` on its undefined
`self.add` for any task with a non-empty `requires()`, so a scheduler over
the chain is only constructible this way; the block-level dependencies live
in the graph.) -/
def tasksChain : List DaisyTask := [.mk 0 [], .mk 1 [], .mk 2 []]

/-- An arbitrary pre-check capability (`precheck` never reaches it). -/
def capNone : Block → Except PyErr Bool := fun _ => .ok false

def acqState : Except (PyErr × SchedState) (Option Block × SchedState) → SchedState
  | .ok (_, s) => s
  | .error (_, s) => s

def relState : Except (PyErr × SchedState) (SchedState × Option UpdatedTasks) → SchedState
  | .ok (s, _) => s
  | .error (_, s) => s

def relDict : Except (PyErr × SchedState) (SchedState × Option UpdatedTasks) →
    Option UpdatedTasks
  | .ok (_, m) => m
  | .error _ => none

def dictAt (d : Option UpdatedTasks) (t : TaskId) : Option TaskState :=
  match d with
  | some m => m t
  | none => none

/-- The constructed scheduler state over the chain. -/
def stChain0 : SchedState :=
  match sched_init Gchain tasksChain with
  | .ok s => s
  | .error _ => init_state Gchain

/-- Construction succeeds (every supplied task has empty `requires()`). -/
theorem stChain0_ok : sched_init Gchain tasksChain = .ok stChain0 := rfl

/-- After acquiring A's first block. -/
def stChain1 : SchedState := acqState (acquire_block Gchain capNone 1 0 stChain0)

/-- After acquiring A's second block. -/
def stChain2 : SchedState := acqState (acquire_block Gchain capNone 1 0 stChain1)

/-- Releasing A's first block as SUCCESS. -/
def relA1 : Except (PyErr × SchedState) (SchedState × Option UpdatedTasks) :=
  release_block Gchain ⟨0, 0, BlockStatus.SUCCESS⟩ stChain2

def stChain3 : SchedState := relState relA1

/-- Releasing A's second block as SUCCESS. -/
def relA2 : Except (PyErr × SchedState) (SchedState × Option UpdatedTasks) :=
  release_block Gchain ⟨0, 1, BlockStatus.SUCCESS⟩ stChain3

def stChain4 : SchedState := relState relA2

/-- The two acquire calls hand out A's two blocks. -/
theorem chain_acquires_ok :
    acquire_block Gchain capNone 1 0 stChain0 = .ok (some blkA1, stChain1) ∧
    acquire_block Gchain capNone 1 0 stChain1 = .ok (some blkA2, stChain2) := by
  constructor <;> rfl

/-- C8 counterexample: the mapping returned by the second release does map
task B, but the recorded `TaskState` has `ready_count = 0` — identical to
its value before the release; `update_ready_queue` never increments
`ready_count`, so "`ready_count` incremented" fails on the code. -/
theorem chain_ready_count_not_incremented :
    dictAt (relDict relA2) 1 = some (stChain3.task_states 1) ∧
    (stChain3.task_states 1).ready_count = 0 ∧
    (stChain4.task_states 1).ready_count = 0 := by
  refine ⟨by decide, by decide, by decide⟩

/-- C8 amended: in the three-task chain, releasing A's first block as
SUCCESS returns a mapping with no entry for B (B still waits on A's second
block), and releasing A's second block appends B's block to B's ready queue
and returns a mapping containing B mapped to B's current `TaskState` — with
`ready_count` unchanged rather than incremented. -/
theorem chain_second_release_readies_B :
    dictAt (relDict relA1) 1 = none ∧
    (stChain3.task_blocks 1).ready_queue = [] ∧
    (relDict relA2).isSome = true ∧
    dictAt (relDict relA2) 1 = some (stChain4.task_states 1) ∧
    (stChain4.task_blocks 1).ready_queue = [blkB1] ∧
    (stChain4.task_states 1).ready_count = (stChain3.task_states 1).ready_count := by
  refine ⟨by decide, by decide, by decide, by decide, by decide, by decide⟩

/-- After acquiring B's block. -/
def stChain5 : SchedState := acqState (acquire_block Gchain capNone 1 1 stChain4)

/-- Releasing B's block as SUCCESS: every downstream block of A's first
block is now completed, so the intended frontier maintenance would remove
A's first block from the completed surface. -/
def relB1 : Except (PyErr × SchedState) (SchedState × Option UpdatedTasks) :=
  release_block Gchain ⟨1, 2, BlockStatus.SUCCESS⟩ stChain5

def stChain6 : SchedState := relState relB1

/-- C2 (code bug): in the reachable state after completing both A blocks and
B's block, A's first block (id 0) is still a member of the completed surface
even though every one of its immediate downstream blocks is completed — the
removal loop of `update_complete_surface` probes the frontier (a set of bare
block ids) with whole `Block` objects, so its guard never fires and no block
is ever removed from the frontier. -/
theorem frontier_keeps_interior_block :
    (relDict relB1).isSome = true ∧
    Sum.inl 0 ∈ stChain6.completed_surface ∧
    (∀ d ∈ Gchain.downstream 0,
      d.block_id ∈ (stChain6.task_blocks d.task_id).completed_blocks) := by
  refine ⟨by decide, by decide, by decide⟩

/-! ### Frame lemmas: which state components each operation can touch -/

theorem ucsStep_task_map (G : DependencyGraph) (st : SchedState) (up : Block) :
    (ucsStep G st up).task_map = st.task_map := by
  unfold ucsStep
  split
  · split <;> rfl
  · rfl

theorem ucsStep_task_states (G : DependencyGraph) (st : SchedState) (up : Block) :
    (ucsStep G st up).task_states = st.task_states := by
  unfold ucsStep
  split
  · split <;> rfl
  · rfl

theorem ucsStep_task_blocks (G : DependencyGraph) (st : SchedState) (up : Block) :
    (ucsStep G st up).task_blocks = st.task_blocks := by
  unfold ucsStep
  split
  · split <;> rfl
  · rfl

theorem ucsStep_root_seq (G : DependencyGraph) (st : SchedState) (up : Block) :
    (ucsStep G st up).root_seq = st.root_seq := by
  unfold ucsStep
  split
  · split <;> rfl
  · rfl

theorem ucsStep_last_prechecked (G : DependencyGraph) (st : SchedState) (up : Block) :
    (ucsStep G st up).last_prechecked = st.last_prechecked := by
  unfold ucsStep
  split
  · split <;> rfl
  · rfl

theorem ucs_fold_task_map (G : DependencyGraph) :
    ∀ (l : List Block) (st : SchedState),
      (l.foldl (ucsStep G) st).task_map = st.task_map := by
  intro l
  induction l with
  | nil => intro st; rfl
  | cons up rest ih =>
    intro st
    rw [List.foldl_cons, ih, ucsStep_task_map]

theorem ucs_fold_task_states (G : DependencyGraph) :
    ∀ (l : List Block) (st : SchedState),
      (l.foldl (ucsStep G) st).task_states = st.task_states := by
  intro l
  induction l with
  | nil => intro st; rfl
  | cons up rest ih =>
    intro st
    rw [List.foldl_cons, ih, ucsStep_task_states]

theorem ucs_fold_task_blocks (G : DependencyGraph) :
    ∀ (l : List Block) (st : SchedState),
      (l.foldl (ucsStep G) st).task_blocks = st.task_blocks := by
  intro l
  induction l with
  | nil => intro st; rfl
  | cons up rest ih =>
    intro st
    rw [List.foldl_cons, ih, ucsStep_task_blocks]

theorem ucs_fold_root_seq (G : DependencyGraph) :
    ∀ (l : List Block) (st : SchedState),
      (l.foldl (ucsStep G) st).root_seq = st.root_seq := by
  intro l
  induction l with
  | nil => intro st; rfl
  | cons up rest ih =>
    intro st
    rw [List.foldl_cons, ih, ucsStep_root_seq]

theorem ucs_fold_last_prechecked (G : DependencyGraph) :
    ∀ (l : List Block) (st : SchedState),
      (l.foldl (ucsStep G) st).last_prechecked = st.last_prechecked := by
  intro l
  induction l with
  | nil => intro st; rfl
  | cons up rest ih =>
    intro st
    rw [List.foldl_cons, ih, ucsStep_last_prechecked]

theorem update_complete_surface_task_states (G : DependencyGraph) (i : BlockId)
    (s : SchedState) :
    (update_complete_surface G i s).task_states = s.task_states := by
  unfold update_complete_surface
  rw [ucs_fold_task_states]

theorem update_complete_surface_task_blocks (G : DependencyGraph) (i : BlockId)
    (s : SchedState) :
    (update_complete_surface G i s).task_blocks = s.task_blocks := by
  unfold update_complete_surface
  rw [ucs_fold_task_blocks]

theorem update_complete_surface_task_map (G : DependencyGraph) (i : BlockId)
    (s : SchedState) :
    (update_complete_surface G i s).task_map = s.task_map := by
  unfold update_complete_surface
  rw [ucs_fold_task_map]

theorem update_complete_surface_root_seq (G : DependencyGraph) (i : BlockId)
    (s : SchedState) :
    (update_complete_surface G i s).root_seq = s.root_seq := by
  unfold update_complete_surface
  rw [ucs_fold_root_seq]

theorem update_complete_surface_last_prechecked (G : DependencyGraph) (i : BlockId)
    (s : SchedState) :
    (update_complete_surface G i s).last_prechecked = s.last_prechecked := by
  unfold update_complete_surface
  rw [ucs_fold_last_prechecked]

theorem precheck_task_states (cap : Block → Except PyErr Bool) (t : TaskId)
    (b : Block) (s : SchedState) :
    (precheck cap t b s).2.task_states = s.task_states := by
  unfold precheck
  split <;> rfl

theorem precheck_task_blocks (cap : Block → Except PyErr Bool) (t : TaskId)
    (b : Block) (s : SchedState) :
    (precheck cap t b s).2.task_blocks = s.task_blocks := by
  unfold precheck
  split <;> rfl

theorem precheck_surface (cap : Block → Except PyErr Bool) (t : TaskId)
    (b : Block) (s : SchedState) :
    (precheck cap t b s).2.completed_surface = s.completed_surface := by
  unfold precheck
  split <;> rfl

theorem precheck_root_seq (cap : Block → Except PyErr Bool) (t : TaskId)
    (b : Block) (s : SchedState) :
    (precheck cap t b s).2.root_seq = s.root_seq := by
  unfold precheck
  split <;> rfl

/-- On a status other than SUCCESS or FAILED the Python method falls off the
end, returning `None`. -/
theorem release_other_status (G : DependencyGraph) (b : Block) (s : SchedState)
    (hs : ¬(b.status = BlockStatus.SUCCESS)) (hf : ¬(b.status = BlockStatus.FAILED)) :
    release_block G b s = .ok (s, none) := by
  unfold release_block
  rw [if_neg hs, if_neg hf]

/-- Exhaustive case analysis of `release_block`. -/
theorem release_block_cases (G : DependencyGraph) (b : Block) (s : SchedState) :
    (b.status = BlockStatus.SUCCESS ∧
      b.block_id ∈ (s.task_blocks b.task_id).processing_blocks ∧
      release_block G b s =
        .ok ((update_ready_queue G b.block_id
                (update_complete_surface G b.block_id (preMid b s))).1,
             some (update_ready_queue G b.block_id
                (update_complete_surface G b.block_id (preMid b s))).2)) ∨
    (b.status = BlockStatus.FAILED ∧
      b.block_id ∈ (s.task_blocks b.task_id).processing_blocks ∧
      release_block G b s = .error (PyErr.typeError, failedMid b s)) ∨
    ((b.status = BlockStatus.SUCCESS ∨ b.status = BlockStatus.FAILED) ∧
      b.block_id ∉ (s.task_blocks b.task_id).processing_blocks ∧
      release_block G b s = .error (PyErr.keyError, s)) ∨
    (¬(b.status = BlockStatus.SUCCESS) ∧ ¬(b.status = BlockStatus.FAILED) ∧
      release_block G b s = .ok (s, none)) := by
  by_cases hs : b.status = BlockStatus.SUCCESS
  · by_cases hm : b.block_id ∈ (s.task_blocks b.task_id).processing_blocks
    · exact Or.inl ⟨hs, hm, release_success_raw G s b hs hm⟩
    · exact Or.inr (Or.inr (Or.inl
        ⟨Or.inl hs, hm, release_block_missing_processing G s b (Or.inl hs) hm⟩))
  · by_cases hf : b.status = BlockStatus.FAILED
    · by_cases hm : b.block_id ∈ (s.task_blocks b.task_id).processing_blocks
      · exact Or.inr (Or.inl ⟨hf, hm, release_failed_raises G s b hf hm⟩)
      · exact Or.inr (Or.inr (Or.inl
          ⟨Or.inr hf, hm, release_block_missing_processing G s b (Or.inr hf) hm⟩))
    · exact Or.inr (Or.inr (Or.inr ⟨hs, hf, release_other_status G b s hs hf⟩))

/-- Exhaustive case analysis of `has_next`. -/
theorem has_next_cases (G : DependencyGraph) (t : TaskId) (s : SchedState) :
    ((s.task_blocks t).ready_queue.length > 0 ∧ has_next G t s = .ok (true, s)) ∨
    (¬((s.task_blocks t).ready_queue.length > 0) ∧
      ¬((s.task_states t).ready_count > 0) ∧ has_next G t s = .ok (false, s)) ∨
    (¬((s.task_blocks t).ready_queue.length > 0) ∧
      (s.task_states t).ready_count > 0 ∧ G.roots t = none ∧
      has_next G t s = .error (PyErr.keyError, s)) ∨
    (¬((s.task_blocks t).ready_queue.length > 0) ∧
      (s.task_states t).ready_count > 0 ∧ (G.roots t).isSome = true ∧
      s.root_seq t = [] ∧
      has_next G t s = .error (PyErr.notImplementedError, s)) ∨
    (∃ b rest, ¬((s.task_blocks t).ready_queue.length > 0) ∧
      (s.task_states t).ready_count > 0 ∧ (G.roots t).isSome = true ∧
      s.root_seq t = b :: rest ∧
      has_next G t s = .ok (true,
        { s with
          root_seq := updFn s.root_seq t rest,
          task_blocks := updFn s.task_blocks t
            { s.task_blocks t with
              ready_queue := (s.task_blocks t).ready_queue ++ [b] } })) := by
  by_cases h1 : (s.task_blocks t).ready_queue.length > 0
  · exact Or.inl ⟨h1, by unfold has_next; rw [if_pos h1]⟩
  · by_cases h2 : (s.task_states t).ready_count > 0
    · cases hr : G.roots t with
      | none =>
        refine Or.inr (Or.inr (Or.inl ⟨h1, h2, rfl, ?_⟩))
        unfold has_next
        rw [if_neg h1, if_pos h2, hr]
      | some p =>
        cases hsq : s.root_seq t with
        | nil =>
          refine Or.inr (Or.inr (Or.inr (Or.inl ⟨h1, h2, rfl, rfl, ?_⟩)))
          unfold has_next
          rw [if_neg h1, if_pos h2, hr, hsq]
        | cons b rest =>
          refine Or.inr (Or.inr (Or.inr (Or.inr
            ⟨b, rest, h1, h2, rfl, rfl, ?_⟩)))
          unfold has_next
          rw [if_neg h1, if_pos h2, hr, hsq]
    · refine Or.inr (Or.inl ⟨h1, h2, ?_⟩)
      unfold has_next
      rw [if_neg h1, if_neg h2]

def hnState : Except (PyErr × SchedState) (Bool × SchedState) → SchedState
  | .ok (_, s) => s
  | .error (_, s) => s

theorem update_ready_queue_task_states (G : DependencyGraph) (i : BlockId)
    (s : SchedState) : (update_ready_queue G i s).1.task_states = s.task_states :=
  urq_fold_task_states G (G.downstream i) (s, fun _ => none)

/-- Every outcome of `has_next` leaves `task_states` untouched. -/
theorem has_next_preserves_task_states (G : DependencyGraph) (t : TaskId)
    (s : SchedState) :
    (hnState (has_next G t s)).task_states = s.task_states := by
  rcases has_next_cases G t s with ⟨_, hh⟩ | ⟨_, _, hh⟩ | ⟨_, _, _, hh⟩ |
    ⟨_, _, _, _, hh⟩ | ⟨b, rest, _, _, _, _, hh⟩ <;> rw [hh] <;> rfl

/-- Every outcome of `release_block` preserves every task's `ready_count`:
no code path of the release machinery writes that field. -/
theorem release_preserves_ready (G : DependencyGraph) (b : Block)
    (s : SchedState) (u : TaskId) :
    ((relState (release_block G b s)).task_states u).ready_count =
      (s.task_states u).ready_count := by
  rcases release_block_cases G b s with ⟨_, _, heq⟩ | ⟨_, _, heq⟩ |
    ⟨_, _, heq⟩ | ⟨_, _, heq⟩ <;> rw [heq]
  · show (((update_ready_queue G b.block_id
        (update_complete_surface G b.block_id (preMid b s))).1.task_states u)).ready_count = _
    rw [update_ready_queue_task_states, update_complete_surface_task_states]
    show ((updFn s.task_states b.task_id _ u)).ready_count = _
    rw [updFn_apply]
    by_cases hu : u = b.task_id
    · rw [if_pos hu, hu]
    · rw [if_neg hu]
  · show ((failedMid b s).task_states u).ready_count = _
    show ((updFn s.task_states b.task_id _ u)).ready_count = _
    rw [updFn_apply]
    by_cases hu : u = b.task_id
    · rw [if_pos hu, hu]
    · rw [if_neg hu]
  · rfl
  · rfl

/-- Every outcome of `precheck` leaves `task_states` untouched (wrapper of
`precheck_task_states` for the paired result). -/
theorem precheck_snd_task_states (cap : Block → Except PyErr Bool) (t : TaskId)
    (b : Block) (s : SchedState) :
    (precheck cap t b s).2.task_states = s.task_states :=
  precheck_task_states cap t b s

/-- Every outcome of `acquire_block` — at any recursion fuel — preserves
every task's `ready_count`: neither the pop, nor the pre-check, nor the
skip-branch release, nor the PROCESSING bookkeeping writes that field. -/
theorem acquire_preserves_ready (G : DependencyGraph)
    (cap : Block → Except PyErr Bool) :
    ∀ (fuel : ℕ) (t : TaskId) (s : SchedState) (u : TaskId),
      ((acqState (acquire_block G cap fuel t s)).task_states u).ready_count =
        (s.task_states u).ready_count := by
  intro fuel
  induction fuel with
  | zero => intro t s u; rfl
  | succ fuel ih =>
    intro t s u
    simp only [acquire_block]
    split
    · -- has_next raised
      rename_i e heq
      have hpres := has_next_preserves_task_states G t s
      rw [heq] at hpres
      show ((e.2.task_states u)).ready_count = _
      rw [show e.2.task_states = s.task_states from hpres]
    · -- has_next returned false: no work available
      rename_i s1 heq
      have hpres := has_next_preserves_task_states G t s
      rw [heq] at hpres
      show ((s1.task_states u)).ready_count = _
      rw [show s1.task_states = s.task_states from hpres]
    · -- has_next returned true: pop and process
      rename_i s1 heq
      have hpres := has_next_preserves_task_states G t s
      rw [heq] at hpres
      have hs1 : s1.task_states = s.task_states := hpres
      split
      · -- popleft on an empty deque (unreachable): IndexError carries s1
        show ((s1.task_states u)).ready_count = _
        rw [hs1]
      · -- a block was popped
        rename_i blk rest heq2
        have hpc : (precheck cap t blk
            (s1.setTB t { s1.task_blocks t with ready_queue := rest })).2.task_states =
            s.task_states := by
          rw [precheck_snd_task_states, setTB_task_states, hs1]
        split
        · -- skip branch: the popped block is fed to release_block
          split
          · -- release_block raised: the exception propagates
            rename_i e heq3
            have hrs := release_preserves_ready G
              { blk with status := BlockStatus.SUCCESS }
              (precheck cap t blk
                (s1.setTB t { s1.task_blocks t with ready_queue := rest })).2 u
            rw [heq3] at hrs
            show ((e.2.task_states u)).ready_count = _
            rw [show (relState (Except.error e)).task_states = e.2.task_states from rfl] at hrs
            rw [hrs, hpc]
          · -- release_block succeeded: recurse on the remaining fuel
            rename_i s3 m heq3
            have hrs := release_preserves_ready G
              { blk with status := BlockStatus.SUCCESS }
              (precheck cap t blk
                (s1.setTB t { s1.task_blocks t with ready_queue := rest })).2 u
            rw [heq3] at hrs
            rw [show (relState (Except.ok (s3, m))).task_states = s3.task_states from rfl] at hrs
            show ((acqState (acquire_block G cap fuel t s3)).task_states u).ready_count = _
            rw [ih t s3 u, hrs, hpc]
        · -- normal branch: PROCESSING bookkeeping only
          show (((precheck cap t blk
              (s1.setTB t { s1.task_blocks t with ready_queue := rest })).2.setTS t
                _).task_states u).ready_count = _
          rw [setTS_task_states]
          by_cases hu : u = t
          · rw [if_pos hu]
            show ((precheck cap t blk
              (s1.setTB t { s1.task_blocks t with ready_queue := rest })).2.task_states
                t).ready_count = _
            rw [hpc, hu]
          · rw [if_neg hu]
            show ((precheck cap t blk
              (s1.setTB t { s1.task_blocks t with ready_queue := rest })).2.task_states
                u).ready_count = _
            rw [hpc]

/-- The `ready_count` value `__init_task` seeds for a task: the root
descriptor's block count for a root task, 0 otherwise. -/
def seedReady (G : DependencyGraph) (t : TaskId) : ℤ :=
  match G.roots t with
  | some p => p.1
  | none => 0

theorem seedReady_none (G : DependencyGraph) (t : TaskId)
    (h : G.roots t = none) : seedReady G t = 0 := by
  unfold seedReady
  rw [h]

theorem seedReady_some (G : DependencyGraph) (t : TaskId) (p : ℤ × List Block)
    (h : G.roots t = some p) : seedReady G t = p.1 := by
  unfold seedReady
  rw [h]

theorem init_tasks_ready (G : DependencyGraph) :
    ∀ (ts : List DaisyTask) (s s0 : SchedState),
      init_tasks G ts s = .ok s0 →
      (∀ t, (s.task_states t).ready_count =
        (if (s.task_map t).isSome then seedReady G t else 0)) →
      ∀ t, (s0.task_states t).ready_count =
        (if (s0.task_map t).isSome then seedReady G t else 0) := by
  intro ts
  induction ts with
  | nil =>
    intro s s0 h hinv
    unfold init_tasks at h
    cases h
    exact hinv
  | cons t0 rest ih =>
    intro s s0 h hinv
    unfold init_tasks init_task at h
    by_cases hknown : (s.task_map t0.task_id).isSome = true
    · rw [if_pos hknown] at h
      exact ih s s0 h hinv
    · rw [if_neg hknown] at h
      cases hreq : t0.req with
      | cons _ _ =>
        rw [hreq] at h
        cases hr : G.roots t0.task_id <;> rw [hr] at h <;> exact Except.noConfusion h
      | nil =>
        rw [hreq] at h
        cases hr : G.roots t0.task_id with
        | none =>
          rw [hr] at h
          refine ih _ s0 h ?_
          intro t
          by_cases ht : t = t0.task_id
          · subst ht
            have h0 : (s.task_states t0.task_id).ready_count = 0 := by
              rw [hinv t0.task_id, if_neg hknown]
            simp [SchedState.setTS, updFn, seedReady_none G _ hr, h0]
          · simp only [SchedState.setTS, updFn]
            simp only [if_neg ht]
            exact hinv t
        | some p =>
          rw [hr] at h
          refine ih _ s0 h ?_
          intro t
          by_cases ht : t = t0.task_id
          · subst ht
            simp [SchedState.setTS, updFn, seedReady_some G _ p hr]
          · simp only [SchedState.setTS, updFn]
            simp only [if_neg ht]
            exact hinv t

theorem sched_init_ready (G : DependencyGraph) (tasks : List DaisyTask)
    (s0 : SchedState) (h : sched_init G tasks = .ok s0) :
    ∀ t, (s0.task_states t).ready_count =
      (if (s0.task_map t).isSome then seedReady G t else 0) :=
  init_tasks_ready G tasks (init_state G) s0 h (by intro t; rfl)

/-- With an empty ready queue, positive `ready_count`, a root entry and an
exhausted lazy sequence, `has_next` calls `next()` on the exhausted
sequence, hits `StopIteration`, and raises `NotImplementedError`. -/
theorem has_next_exhausted (G : DependencyGraph) (t : TaskId) (s : SchedState)
    (hq : (s.task_blocks t).ready_queue = [])
    (hrc : 0 < (s.task_states t).ready_count)
    (hroot : (G.roots t).isSome = true)
    (hseq : s.root_seq t = []) :
    has_next G t s = .error (PyErr.notImplementedError, s) := by
  rcases has_next_cases G t s with ⟨h1, _⟩ | ⟨_, h2, _⟩ | ⟨_, _, h3, _⟩ |
    ⟨_, _, _, _, hh⟩ | ⟨b, rest, _, _, _, hs5, _⟩
  · rw [hq] at h1
    exact absurd h1 (by simp)
  · exact absurd hrc h2
  · rw [h3] at hroot
    exact absurd hroot (by simp)
  · exact hh
  · rw [hseq] at hs5
    exact List.noConfusion hs5

/-- C10: no operation modifies any task's `ready_count` after construction.
Initialization seeds it (root descriptor's block count for root tasks, 0
otherwise); every outcome of `has_next`, `acquire_block` (any fuel) and
`release_block` — including readiness propagation — leaves every task's
`ready_count` unchanged; consequently, for a root task whose finite lazy
source is exhausted while the ready queue is empty, the guard
`ready_count > 0` still holds and `has_next` calls `next()` on the exhausted
sequence, raising (`StopIteration` converted to `NotImplementedError`). -/
theorem ready_count_frame_and_exhaustion :
    (∀ (G : DependencyGraph) (tasks : List DaisyTask) (s0 : SchedState),
      sched_init G tasks = .ok s0 →
      ∀ t, (s0.task_states t).ready_count =
        (if (s0.task_map t).isSome then seedReady G t else 0)) ∧
    (∀ (G : DependencyGraph) (t : TaskId) (s : SchedState) (u : TaskId),
      ((hnState (has_next G t s)).task_states u).ready_count =
        (s.task_states u).ready_count) ∧
    (∀ (G : DependencyGraph) (cap : Block → Except PyErr Bool) (fuel : ℕ)
      (t : TaskId) (s : SchedState) (u : TaskId),
      ((acqState (acquire_block G cap fuel t s)).task_states u).ready_count =
        (s.task_states u).ready_count) ∧
    (∀ (G : DependencyGraph) (b : Block) (s : SchedState) (u : TaskId),
      ((relState (release_block G b s)).task_states u).ready_count =
        (s.task_states u).ready_count) ∧
    (∀ (G : DependencyGraph) (t : TaskId) (s : SchedState),
      (s.task_blocks t).ready_queue = [] →
      0 < (s.task_states t).ready_count →
      (G.roots t).isSome = true →
      s.root_seq t = [] →
      has_next G t s = .error (PyErr.notImplementedError, s)) := by
  refine ⟨?_, ?_, ?_, ?_, ?_⟩
  · intro G tasks s0 h t
    exact sched_init_ready G tasks s0 h t
  · intro G t s u
    rw [has_next_preserves_task_states G t s]
  · intro G cap fuel t s u
    exact acquire_preserves_ready G cap fuel t s u
  · intro G b s u
    exact release_preserves_ready G b s u
  · intro G t s hq hrc hroot hseq
    exact has_next_exhausted G t s hq hrc hroot hseq

/-- A root task whose lazy source is already exhausted while `ready_count`
is still positive. -/
def GExh : DependencyGraph :=
  { Gtriv with roots := fun t => if t = 0 then some (3, []) else none }

def sExh : SchedState :=
  { init_state GExh with
    task_states := updFn (init_state GExh).task_states 0
      { ready_count := 3, total_block_count := 3 } }

/-- Witness for C10 at concrete inputs: the chain scheduler seeds task 0's
`ready_count` to the root count 2; `has_next`, `acquire_block` and
`release_block` leave `ready_count` unchanged on concrete runs; and
`has_next` on an exhausted root raises `NotImplementedError`. -/
theorem ready_count_frame_and_exhaustion_witness :
    ((stChain0.task_states 0).ready_count =
      (if (stChain0.task_map 0).isSome then seedReady Gchain 0 else 0)) ∧
    (((hnState (has_next Gchain 0 stChain0)).task_states 0).ready_count =
      (stChain0.task_states 0).ready_count) ∧
    (((acqState (acquire_block Gchain capNone 1 0 stChain0)).task_states 0).ready_count =
      (stChain0.task_states 0).ready_count) ∧
    (((relState (release_block Gchain ⟨0, 0, BlockStatus.SUCCESS⟩ stChain2)).task_states
        0).ready_count = (stChain2.task_states 0).ready_count) ∧
    has_next GExh 0 sExh = .error (PyErr.notImplementedError, sExh) :=
  ⟨ready_count_frame_and_exhaustion.1 Gchain tasksChain stChain0 stChain0_ok 0,
   ready_count_frame_and_exhaustion.2.1 Gchain 0 stChain0 0,
   ready_count_frame_and_exhaustion.2.2.1 Gchain capNone 1 0 stChain0 0,
   ready_count_frame_and_exhaustion.2.2.2.1 Gchain ⟨0, 0, BlockStatus.SUCCESS⟩ stChain2 0,
   ready_count_frame_and_exhaustion.2.2.2.2 GExh 0 sExh rfl (by decide) rfl rfl⟩

/-! ### Reachable states and the frontier invariant -/

/-- Well-formedness of the graph collaborator (modelled from the spec): the
blocks returned by `upstream`/`downstream` and supplied by root sequences
carry the task id of their owner, and the graph's id-keyed API makes a block
id determine its owning task (`owner`). -/
structure WFGraph (G : DependencyGraph) : Prop where
  downstream_own : ∀ i : BlockId, ∀ d ∈ G.downstream i, G.owner d.block_id = d.task_id
  upstream_own : ∀ i : BlockId, ∀ u ∈ G.upstream i, G.owner u.block_id = u.task_id
  roots_own : ∀ (t : TaskId) (p : ℤ × List Block), G.roots t = some p →
    ∀ b ∈ p.2, b.task_id = t ∧ G.owner b.block_id = t

/-- A block counts as completed when its id is in its own task's
`completed_blocks`. -/
def completedIn (s : SchedState) (b : Block) : Prop :=
  b.block_id ∈ (s.task_blocks b.task_id).completed_blocks

/-- The inductive state invariant: the completed surface holds exactly the
bare ids of completed blocks (each recorded under its owning task), and
every block id sitting in a ready queue, a processing set or a root
sequence belongs to the task whose structure holds it. -/
structure SchedInv (G : DependencyGraph) (s : SchedState) : Prop where
  surf_inl : ∀ x ∈ s.completed_surface, ∃ j : BlockId,
    x = Sum.inl j ∧ j ∈ (s.task_blocks (G.owner j)).completed_blocks
  comp_surf : ∀ (t : TaskId) (j : BlockId), j ∈ (s.task_blocks t).completed_blocks →
    Sum.inl j ∈ s.completed_surface ∧ G.owner j = t
  queue_own : ∀ t : TaskId, ∀ b ∈ (s.task_blocks t).ready_queue,
    b.task_id = t ∧ G.owner b.block_id = t
  proc_own : ∀ (t : TaskId) (j : BlockId), j ∈ (s.task_blocks t).processing_blocks →
    G.owner j = t
  seq_own : ∀ t : TaskId, ∀ b ∈ s.root_seq t,
    b.task_id = t ∧ G.owner b.block_id = t

theorem SchedInv.inlOnly {G : DependencyGraph} {s : SchedState}
    (h : SchedInv G s) : InlOnly s.completed_surface := by
  intro x hx
  obtain ⟨j, hj, _⟩ := h.surf_inl x hx
  exact ⟨j, hj⟩

/-- Invariance under changes that touch neither the per-task block
collections, the frontier, nor the root sequences. -/
theorem SchedInv.congr {G : DependencyGraph} {s s' : SchedState}
    (h : SchedInv G s)
    (hb : s'.task_blocks = s.task_blocks)
    (hs : s'.completed_surface = s.completed_surface)
    (hr : s'.root_seq = s.root_seq) : SchedInv G s' := by
  refine ⟨?_, ?_, ?_, ?_, ?_⟩
  · rw [hb, hs]; exact h.surf_inl
  · rw [hb, hs]; exact h.comp_surf
  · rw [hb]; exact h.queue_own
  · rw [hb]; exact h.proc_own
  · rw [hr]; exact h.seq_own

/-- The states reachable by driving the scheduler: a successful
construction, followed by any sequence of `has_next`, `acquire_block` and
`release_block` calls, keeping the state an exception was raised with. -/
inductive Reachable (G : DependencyGraph) (cap : Block → Except PyErr Bool) :
    SchedState → Prop where
  | init (tasks : List DaisyTask) (s : SchedState) :
      sched_init G tasks = .ok s → Reachable G cap s
  | step_has_next (t : TaskId) (s : SchedState) :
      Reachable G cap s → Reachable G cap (hnState (has_next G t s))
  | step_acquire (fuel : ℕ) (t : TaskId) (s : SchedState) :
      Reachable G cap s → Reachable G cap (acqState (acquire_block G cap fuel t s))
  | step_release (b : Block) (s : SchedState) :
      Reachable G cap s → Reachable G cap (relState (release_block G b s))

theorem init_tasks_frame (G : DependencyGraph) :
    ∀ (ts : List DaisyTask) (s s0 : SchedState), init_tasks G ts s = .ok s0 →
      s0.task_blocks = s.task_blocks ∧
      s0.completed_surface = s.completed_surface ∧
      s0.root_seq = s.root_seq := by
  intro ts
  induction ts with
  | nil =>
    intro s s0 h
    unfold init_tasks at h
    cases h
    exact ⟨rfl, rfl, rfl⟩
  | cons t0 rest ih =>
    intro s s0 h
    unfold init_tasks init_task at h
    by_cases hknown : (s.task_map t0.task_id).isSome = true
    · rw [if_pos hknown] at h
      exact ih s s0 h
    · rw [if_neg hknown] at h
      cases hreq : t0.req with
      | cons _ _ =>
        rw [hreq] at h
        cases hr : G.roots t0.task_id <;> rw [hr] at h <;> exact Except.noConfusion h
      | nil =>
        rw [hreq] at h
        cases hr : G.roots t0.task_id with
        | none =>
          rw [hr] at h
          obtain ⟨hb', hs', hr'⟩ := ih _ s0 h
          exact ⟨hb', hs', hr'⟩
        | some p =>
          rw [hr] at h
          obtain ⟨hb', hs', hr'⟩ := ih _ s0 h
          exact ⟨hb', hs', hr'⟩

/-- A successfully constructed scheduler satisfies the invariant. -/
theorem sched_init_inv (G : DependencyGraph) (hWF : WFGraph G)
    (tasks : List DaisyTask) (s0 : SchedState)
    (h : sched_init G tasks = .ok s0) : SchedInv G s0 := by
  obtain ⟨hb, hs, hr⟩ := init_tasks_frame G tasks (init_state G) s0 h
  refine ⟨?_, ?_, ?_, ?_, ?_⟩
  · intro x hx
    rw [hs] at hx
    exact absurd hx (Finset.not_mem_empty x)
  · intro t j hj
    rw [hb] at hj
    exact absurd hj (Finset.not_mem_empty j)
  · intro t b hbq
    rw [hb] at hbq
    exact absurd hbq (List.not_mem_nil b)
  · intro t j hj
    rw [hb] at hj
    exact absurd hj (Finset.not_mem_empty j)
  · intro t b hbs
    rw [hr] at hbs
    have hbs' : b ∈ (match G.roots t with | some p => p.2 | none => []) := hbs
    clear hbs
    revert hbs'
    cases hroot : G.roots t with
    | none => intro hbs'; exact absurd hbs' (List.not_mem_nil b)
    | some p => intro hbs'; exact hWF.roots_own t p hroot b hbs'

/-- `has_next` preserves the invariant in every outcome. -/
theorem has_next_inv (G : DependencyGraph) (t : TaskId) (s : SchedState)
    (h : SchedInv G s) : SchedInv G (hnState (has_next G t s)) := by
  rcases has_next_cases G t s with ⟨_, hh⟩ | ⟨_, _, hh⟩ | ⟨_, _, _, hh⟩ |
    ⟨_, _, _, _, hh⟩ | ⟨b, rest, hql, hrc, hroot, hseq, hh⟩ <;> rw [hh]
  · exact h
  · exact h
  · exact h
  · exact h
  · -- one block pulled from the root sequence into the ready queue
    have hb : b ∈ s.root_seq t := by
      rw [hseq]
      exact List.mem_cons_self b rest
    have hcomp : ∀ u, ((hnState (Except.ok (true,
        { s with
          root_seq := updFn s.root_seq t rest,
          task_blocks := updFn s.task_blocks t
            { s.task_blocks t with
              ready_queue := (s.task_blocks t).ready_queue ++ [b] } }))).task_blocks
        u).completed_blocks = (s.task_blocks u).completed_blocks := by
      intro u
      show (updFn s.task_blocks t _ u).completed_blocks = _
      rw [updFn_apply]
      by_cases hu : u = t
      · rw [if_pos hu, hu]
      · rw [if_neg hu]
    have hproc : ∀ u, ((hnState (Except.ok (true,
        { s with
          root_seq := updFn s.root_seq t rest,
          task_blocks := updFn s.task_blocks t
            { s.task_blocks t with
              ready_queue := (s.task_blocks t).ready_queue ++ [b] } }))).task_blocks
        u).processing_blocks = (s.task_blocks u).processing_blocks := by
      intro u
      show (updFn s.task_blocks t _ u).processing_blocks = _
      rw [updFn_apply]
      by_cases hu : u = t
      · rw [if_pos hu, hu]
      · rw [if_neg hu]
    refine ⟨?_, ?_, ?_, ?_, ?_⟩
    · intro x hx
      obtain ⟨j, hj, hjc⟩ := h.surf_inl x hx
      exact ⟨j, hj, by rw [hcomp]; exact hjc⟩
    · intro u j hj
      rw [hcomp] at hj
      exact h.comp_surf u j hj
    · intro u bb hbb
      have hq' : bb ∈ (updFn s.task_blocks t
          { s.task_blocks t with
            ready_queue := (s.task_blocks t).ready_queue ++ [b] } u).ready_queue := hbb
      rw [updFn_apply] at hq'
      by_cases hu : u = t
      · rw [if_pos hu] at hq'
        have : bb ∈ (s.task_blocks t).ready_queue ++ [b] := hq'
        rcases List.mem_append.mp this with hold | hnew
        · have := h.queue_own t bb hold
          rw [hu]
          exact this
        · have hbbb : bb = b := List.mem_singleton.mp hnew
          rw [hbbb, hu]
          exact h.seq_own t b hb
      · rw [if_neg hu] at hq'
        exact h.queue_own u bb hq'
    · intro u j hj
      rw [hproc] at hj
      exact h.proc_own u j hj
    · intro u bb hbb
      have hs' : bb ∈ updFn s.root_seq t rest u := hbb
      rw [updFn_apply] at hs'
      by_cases hu : u = t
      · rw [if_pos hu] at hs'
        have : bb ∈ s.root_seq t := by
          rw [hseq]
          exact List.mem_cons_of_mem b hs'
        rw [hu]
        exact h.seq_own t bb this
      · rw [if_neg hu] at hs'
        exact h.seq_own u bb hs'

theorem update_ready_queue_surface (G : DependencyGraph) (i : BlockId)
    (s : SchedState) :
    (update_ready_queue G i s).1.completed_surface = s.completed_surface :=
  urq_fold_surface G (G.downstream i) (s, fun _ => none)

theorem update_ready_queue_root_seq (G : DependencyGraph) (i : BlockId)
    (s : SchedState) :
    (update_ready_queue G i s).1.root_seq = s.root_seq :=
  urq_fold_root_seq G (G.downstream i) (s, fun _ => none)

theorem update_ready_queue_completed (G : DependencyGraph) (i : BlockId)
    (s : SchedState) (t : TaskId) :
    ((update_ready_queue G i s).1.task_blocks t).completed_blocks =
      (s.task_blocks t).completed_blocks :=
  urq_fold_completed G (G.downstream i) (s, fun _ => none) t

theorem update_ready_queue_processing (G : DependencyGraph) (i : BlockId)
    (s : SchedState) (t : TaskId) :
    ((update_ready_queue G i s).1.task_blocks t).processing_blocks =
      (s.task_blocks t).processing_blocks :=
  urq_fold_processing G (G.downstream i) (s, fun _ => none) t

theorem successMid_surface (b : Block) (s : SchedState) :
    (successMid b s).completed_surface =
      insert (Sum.inl b.block_id) s.completed_surface := rfl

theorem successMid_root_seq (b : Block) (s : SchedState) :
    (successMid b s).root_seq = s.root_seq := rfl

theorem successMid_queue (b : Block) (s : SchedState) (u : TaskId) :
    ((successMid b s).task_blocks u).ready_queue =
      (s.task_blocks u).ready_queue := by
  show (updFn s.task_blocks b.task_id _ u).ready_queue = _
  rw [updFn_apply]
  by_cases hu : u = b.task_id
  · rw [if_pos hu, hu]
  · rw [if_neg hu]

theorem successMid_completed (b : Block) (s : SchedState) (u : TaskId) :
    ((successMid b s).task_blocks u).completed_blocks =
      if u = b.task_id
      then insert b.block_id (s.task_blocks b.task_id).completed_blocks
      else (s.task_blocks u).completed_blocks := by
  show (updFn s.task_blocks b.task_id _ u).completed_blocks = _
  rw [updFn_apply]
  by_cases hu : u = b.task_id
  · rw [if_pos hu, if_pos hu]
  · rw [if_neg hu, if_neg hu]

theorem successMid_processing (b : Block) (s : SchedState) (u : TaskId) :
    ((successMid b s).task_blocks u).processing_blocks =
      if u = b.task_id
      then (s.task_blocks b.task_id).processing_blocks.erase b.block_id
      else (s.task_blocks u).processing_blocks := by
  show (updFn s.task_blocks b.task_id _ u).processing_blocks = _
  rw [updFn_apply]
  by_cases hu : u = b.task_id
  · rw [if_pos hu, if_pos hu]
  · rw [if_neg hu, if_neg hu]

theorem failedMid_surface (b : Block) (s : SchedState) :
    (failedMid b s).completed_surface = s.completed_surface := rfl

theorem failedMid_root_seq (b : Block) (s : SchedState) :
    (failedMid b s).root_seq = s.root_seq := rfl

theorem failedMid_queue (b : Block) (s : SchedState) (u : TaskId) :
    ((failedMid b s).task_blocks u).ready_queue =
      (s.task_blocks u).ready_queue := by
  show (updFn s.task_blocks b.task_id _ u).ready_queue = _
  rw [updFn_apply]
  by_cases hu : u = b.task_id
  · rw [if_pos hu, hu]
  · rw [if_neg hu]

theorem failedMid_completed (b : Block) (s : SchedState) (u : TaskId) :
    ((failedMid b s).task_blocks u).completed_blocks =
      (s.task_blocks u).completed_blocks := by
  show (updFn s.task_blocks b.task_id _ u).completed_blocks = _
  rw [updFn_apply]
  by_cases hu : u = b.task_id
  · rw [if_pos hu, hu]
  · rw [if_neg hu]

theorem failedMid_processing (b : Block) (s : SchedState) (u : TaskId) :
    ((failedMid b s).task_blocks u).processing_blocks =
      if u = b.task_id
      then (s.task_blocks b.task_id).processing_blocks.erase b.block_id
      else (s.task_blocks u).processing_blocks := by
  show (updFn s.task_blocks b.task_id _ u).processing_blocks = _
  rw [updFn_apply]
  by_cases hu : u = b.task_id
  · rw [if_pos hu, if_pos hu]
  · rw [if_neg hu, if_neg hu]

/-- `release_block` preserves the invariant in every outcome. -/
theorem release_inv (G : DependencyGraph) (hWF : WFGraph G) (b : Block)
    (s : SchedState) (h : SchedInv G s) :
    SchedInv G (relState (release_block G b s)) := by
  by_cases hst : b.status = BlockStatus.SUCCESS
  · by_cases hmem : b.block_id ∈ (s.task_blocks b.task_id).processing_blocks
    · rw [release_success_eq G s b hst hmem h.inlOnly]
      show SchedInv G (update_ready_queue G b.block_id (successMid b s)).1
      have howner : G.owner b.block_id = b.task_id := h.proc_own b.task_id b.block_id hmem
      have hFsurf : (update_ready_queue G b.block_id (successMid b s)).1.completed_surface =
          insert (Sum.inl b.block_id) s.completed_surface := by
        rw [update_ready_queue_surface, successMid_surface]
      have hFcompl : ∀ u, ((update_ready_queue G b.block_id
          (successMid b s)).1.task_blocks u).completed_blocks =
          (if u = b.task_id
           then insert b.block_id (s.task_blocks b.task_id).completed_blocks
           else (s.task_blocks u).completed_blocks) := by
        intro u
        rw [update_ready_queue_completed, successMid_completed]
      have hFproc : ∀ u, ((update_ready_queue G b.block_id
          (successMid b s)).1.task_blocks u).processing_blocks =
          (if u = b.task_id
           then (s.task_blocks b.task_id).processing_blocks.erase b.block_id
           else (s.task_blocks u).processing_blocks) := by
        intro u
        rw [update_ready_queue_processing, successMid_processing]
      have hFqueue : ∀ u, ((update_ready_queue G b.block_id
          (successMid b s)).1.task_blocks u).ready_queue =
          (s.task_blocks u).ready_queue ++
            readyAdds G (insert (Sum.inl b.block_id) s.completed_surface)
              (G.downstream b.block_id) u := by
        intro u
        rw [update_ready_queue_queue, successMid_queue, successMid_surface]
      have hFroot : (update_ready_queue G b.block_id
          (successMid b s)).1.root_seq = s.root_seq := by
        rw [update_ready_queue_root_seq, successMid_root_seq]
      refine ⟨?_, ?_, ?_, ?_, ?_⟩
      · intro x hx
        rw [hFsurf] at hx
        rcases Finset.mem_insert.mp hx with hx1 | hx2
        · refine ⟨b.block_id, hx1, ?_⟩
          rw [hFcompl, howner, if_pos rfl]
          exact Finset.mem_insert_self _ _
        · obtain ⟨j, hj, hjc⟩ := h.surf_inl x hx2
          refine ⟨j, hj, ?_⟩
          rw [hFcompl]
          by_cases ho : G.owner j = b.task_id
          · rw [if_pos ho]
            rw [ho] at hjc
            exact Finset.mem_insert_of_mem hjc
          · rw [if_neg ho]
            exact hjc
      · intro u j hj
        rw [hFcompl] at hj
        by_cases hu : u = b.task_id
        · rw [if_pos hu] at hj
          rcases Finset.mem_insert.mp hj with hj1 | hj2
          · constructor
            · rw [hFsurf, hj1]
              exact Finset.mem_insert_self _ _
            · rw [hj1, howner, hu]
          · obtain ⟨hin, hown⟩ := h.comp_surf b.task_id j hj2
            constructor
            · rw [hFsurf]
              exact Finset.mem_insert_of_mem hin
            · rw [hown, hu]
        · rw [if_neg hu] at hj
          obtain ⟨hin, hown⟩ := h.comp_surf u j hj
          constructor
          · rw [hFsurf]
            exact Finset.mem_insert_of_mem hin
          · exact hown
      · intro u d hd
        rw [hFqueue] at hd
        rcases List.mem_append.mp hd with hold | hnew
        · exact h.queue_own u d hold
        · rw [mem_readyAdds] at hnew
          obtain ⟨hdown, hdt, _⟩ := hnew
          exact ⟨hdt, by rw [hWF.downstream_own b.block_id d hdown, hdt]⟩
      · intro u j hj
        rw [hFproc] at hj
        by_cases hu : u = b.task_id
        · rw [if_pos hu] at hj
          rw [h.proc_own b.task_id j (Finset.mem_of_mem_erase hj), hu]
        · rw [if_neg hu] at hj
          exact h.proc_own u j hj
      · intro u d hd
        rw [hFroot] at hd
        exact h.seq_own u d hd
    · rw [release_block_missing_processing G s b (Or.inl hst) hmem]
      exact h
  · by_cases hf : b.status = BlockStatus.FAILED
    · by_cases hmem : b.block_id ∈ (s.task_blocks b.task_id).processing_blocks
      · rw [release_failed_raises G s b hf hmem]
        show SchedInv G (failedMid b s)
        refine ⟨?_, ?_, ?_, ?_, ?_⟩
        · intro x hx
          rw [failedMid_surface] at hx
          obtain ⟨j, hj, hjc⟩ := h.surf_inl x hx
          refine ⟨j, hj, ?_⟩
          rw [failedMid_completed]
          exact hjc
        · intro u j hj
          rw [failedMid_completed] at hj
          obtain ⟨hin, hown⟩ := h.comp_surf u j hj
          exact ⟨by rw [failedMid_surface]; exact hin, hown⟩
        · intro u d hd
          rw [failedMid_queue] at hd
          exact h.queue_own u d hd
        · intro u j hj
          rw [failedMid_processing] at hj
          by_cases hu : u = b.task_id
          · rw [if_pos hu] at hj
            rw [h.proc_own b.task_id j (Finset.mem_of_mem_erase hj), hu]
          · rw [if_neg hu] at hj
            exact h.proc_own u j hj
        · intro u d hd
          rw [failedMid_root_seq] at hd
          exact h.seq_own u d hd
      · rw [release_block_missing_processing G s b (Or.inr hf) hmem]
        exact h
    · rw [release_other_status G b s hst hf]
      exact h

/-- Replacing a task's ready queue by a sublist (such as popping its head)
preserves the invariant. -/
theorem setTB_queue_inv (G : DependencyGraph) (s1 : SchedState) (t : TaskId)
    (newq : List Block) (h1 : SchedInv G s1)
    (hsub : ∀ d ∈ newq, d ∈ (s1.task_blocks t).ready_queue) :
    SchedInv G (s1.setTB t { s1.task_blocks t with ready_queue := newq }) := by
  have hcomp : ∀ u, ((s1.setTB t { s1.task_blocks t with ready_queue := newq }).task_blocks
      u).completed_blocks = (s1.task_blocks u).completed_blocks := by
    intro u
    rw [setTB_task_blocks]
    by_cases hu : u = t
    · rw [if_pos hu, hu]
    · rw [if_neg hu]
  have hproc : ∀ u, ((s1.setTB t { s1.task_blocks t with ready_queue := newq }).task_blocks
      u).processing_blocks = (s1.task_blocks u).processing_blocks := by
    intro u
    rw [setTB_task_blocks]
    by_cases hu : u = t
    · rw [if_pos hu, hu]
    · rw [if_neg hu]
  refine ⟨?_, ?_, ?_, ?_, ?_⟩
  · intro x hx
    obtain ⟨j, hj, hjc⟩ := h1.surf_inl x hx
    exact ⟨j, hj, by rw [hcomp]; exact hjc⟩
  · intro u j hj
    rw [hcomp] at hj
    exact h1.comp_surf u j hj
  · intro u d hd
    rw [setTB_task_blocks] at hd
    by_cases hu : u = t
    · rw [if_pos hu] at hd
      have : d ∈ (s1.task_blocks t).ready_queue := hsub d hd
      rw [hu]
      exact h1.queue_own t d this
    · rw [if_neg hu] at hd
      exact h1.queue_own u d hd
  · intro u j hj
    rw [hproc] at hj
    exact h1.proc_own u j hj
  · intro u d hd
    exact h1.seq_own u d hd

/-- Adding a block id owned by task `t` to task `t`'s processing set
preserves the invariant. -/
theorem proc_insert_inv (G : DependencyGraph) (s2 : SchedState) (t : TaskId)
    (j : BlockId) (h : SchedInv G s2) (hj : G.owner j = t) :
    SchedInv G (s2.setTB t
      { s2.task_blocks t with
        processing_blocks := insert j (s2.task_blocks t).processing_blocks }) := by
  have hcomp : ∀ u, ((s2.setTB t
      { s2.task_blocks t with
        processing_blocks := insert j (s2.task_blocks t).processing_blocks }).task_blocks
      u).completed_blocks = (s2.task_blocks u).completed_blocks := by
    intro u
    rw [setTB_task_blocks]
    by_cases hu : u = t
    · rw [if_pos hu, hu]
    · rw [if_neg hu]
  have hqueue : ∀ u, ((s2.setTB t
      { s2.task_blocks t with
        processing_blocks := insert j (s2.task_blocks t).processing_blocks }).task_blocks
      u).ready_queue = (s2.task_blocks u).ready_queue := by
    intro u
    rw [setTB_task_blocks]
    by_cases hu : u = t
    · rw [if_pos hu, hu]
    · rw [if_neg hu]
  refine ⟨?_, ?_, ?_, ?_, ?_⟩
  · intro x hx
    obtain ⟨j', hj', hjc⟩ := h.surf_inl x hx
    exact ⟨j', hj', by rw [hcomp]; exact hjc⟩
  · intro u j' hj'
    rw [hcomp] at hj'
    exact h.comp_surf u j' hj'
  · intro u d hd
    rw [hqueue] at hd
    exact h.queue_own u d hd
  · intro u j' hj'
    rw [setTB_task_blocks] at hj'
    by_cases hu : u = t
    · rw [if_pos hu] at hj'
      have : j' ∈ insert j (s2.task_blocks t).processing_blocks := hj'
      rcases Finset.mem_insert.mp this with hj1 | hj2
      · rw [hj1, hj, hu]
      · rw [h.proc_own t j' hj2, hu]
    · rw [if_neg hu] at hj'
      exact h.proc_own u j' hj'
  · intro u d hd
    exact h.seq_own u d hd

/-- `acquire_block` preserves the invariant in every outcome, at any fuel. -/
theorem acquire_inv (G : DependencyGraph) (hWF : WFGraph G)
    (cap : Block → Except PyErr Bool) :
    ∀ (fuel : ℕ) (t : TaskId) (s : SchedState), SchedInv G s →
      SchedInv G (acqState (acquire_block G cap fuel t s)) := by
  intro fuel
  induction fuel with
  | zero => intro t s h; exact h
  | succ fuel ih =>
    intro t s h
    simp only [acquire_block]
    split
    · rename_i e heq
      have hh := has_next_inv G t s h
      rw [heq] at hh
      exact hh
    · rename_i s1 heq
      have hh := has_next_inv G t s h
      rw [heq] at hh
      exact hh
    · rename_i s1 heq
      have h1 : SchedInv G s1 := by
        have hh := has_next_inv G t s h
        rw [heq] at hh
        exact hh
      split
      · exact h1
      · rename_i blk rest heq2
        have hblk : blk ∈ (s1.task_blocks t).ready_queue := by
          rw [heq2]
          exact List.mem_cons_self _ _
        have h2 : SchedInv G (s1.setTB t { s1.task_blocks t with ready_queue := rest }) :=
          setTB_queue_inv G s1 t rest h1 (by
            intro d hd
            rw [heq2]
            exact List.mem_cons_of_mem _ hd)
        have h3 : SchedInv G (precheck cap t blk
            (s1.setTB t { s1.task_blocks t with ready_queue := rest })).2 :=
          SchedInv.congr h2 (precheck_task_blocks cap t blk _)
            (precheck_surface cap t blk _) (precheck_root_seq cap t blk _)
        split
        · split
          · rename_i e heq3
            have hr := release_inv G hWF { blk with status := BlockStatus.SUCCESS }
              (precheck cap t blk
                (s1.setTB t { s1.task_blocks t with ready_queue := rest })).2 h3
            rw [heq3] at hr
            exact hr
          · rename_i s3 m heq3
            have hr := release_inv G hWF { blk with status := BlockStatus.SUCCESS }
              (precheck cap t blk
                (s1.setTB t { s1.task_blocks t with ready_queue := rest })).2 h3
            rw [heq3] at hr
            exact ih t s3 hr
        · have hown : G.owner blk.block_id = t := (h1.queue_own t blk hblk).2
          have h4 : SchedInv G ((precheck cap t blk
              (s1.setTB t { s1.task_blocks t with ready_queue := rest })).2.setTS t
                { (precheck cap t blk
                    (s1.setTB t { s1.task_blocks t with ready_queue := rest })).2.task_states t with
                  started := ((precheck cap t blk
                    (s1.setTB t { s1.task_blocks t with ready_queue := rest })).2.task_states t).started || true,
                  processing_count := ((precheck cap t blk
                    (s1.setTB t { s1.task_blocks t with ready_queue := rest })).2.task_states t).processing_count + 1 }) :=
            SchedInv.congr h3 rfl rfl rfl
          exact proc_insert_inv G _ t blk.block_id h4 hown

/-- Every reachable scheduler state satisfies the invariant. -/
theorem reachable_inv (G : DependencyGraph) (cap : Block → Except PyErr Bool)
    (hWF : WFGraph G) (s : SchedState) (h : Reachable G cap s) : SchedInv G s := by
  induction h with
  | init tasks s hok => exact sched_init_inv G hWF tasks s hok
  | step_has_next t s _ ih => exact has_next_inv G t s ih
  | step_acquire fuel t s _ ih => exact acquire_inv G hWF cap fuel t s ih
  | step_release b s _ ih => exact release_inv G hWF b s ih

/-- C1: in every reachable scheduler state, when a block is released as
SUCCESS, the readiness propagation appends a block `d` to task `t`'s ready
queue exactly when `d` is an immediate downstream block of the released
block, owned by `t`, all of whose immediate upstream blocks are completed
(have reached SUCCESS) in the post-release state — so a block whose upstream
blocks live in several tasks becomes ready exactly when the last of them is
released as SUCCESS. -/
theorem readiness_iff_upstream_complete (G : DependencyGraph)
    (cap : Block → Except PyErr Bool) (hWF : WFGraph G)
    (s : SchedState) (hreach : Reachable G cap s)
    (b : Block) (s' : SchedState) (om : Option UpdatedTasks)
    (hst : b.status = BlockStatus.SUCCESS)
    (hrel : release_block G b s = .ok (s', om)) :
    ∀ t : TaskId, ∃ new : List Block,
      (s'.task_blocks t).ready_queue = (s.task_blocks t).ready_queue ++ new ∧
      ∀ d : Block, d ∈ new ↔
        (d ∈ G.downstream b.block_id ∧ d.task_id = t ∧
          ∀ up ∈ G.upstream d.block_id, completedIn s' up) := by
  have hinv := reachable_inv G cap hWF s hreach
  by_cases hmem : b.block_id ∈ (s.task_blocks b.task_id).processing_blocks
  · rw [release_success_eq G s b hst hmem hinv.inlOnly] at hrel
    injection hrel with hpair
    have hs' : s' = (update_ready_queue G b.block_id (successMid b s)).1 :=
      (congrArg Prod.fst hpair).symm
    subst hs'
    have howner : G.owner b.block_id = b.task_id := hinv.proc_own b.task_id b.block_id hmem
    intro t
    refine ⟨readyAdds G (insert (Sum.inl b.block_id) s.completed_surface)
      (G.downstream b.block_id) t, ?_, ?_⟩
    · rw [update_ready_queue_queue, successMid_queue, successMid_surface]
    · intro d
      rw [mem_readyAdds]
      constructor
      · rintro ⟨hdown, hdt, hready⟩
        refine ⟨hdown, hdt, ?_⟩
        intro up hup
        rw [upstreamReady_iff] at hready
        have hupmem := hready up hup
        have hupown : G.owner up.block_id = up.task_id := hWF.upstream_own d.block_id up hup
        show up.block_id ∈ ((update_ready_queue G b.block_id
          (successMid b s)).1.task_blocks up.task_id).completed_blocks
        rw [update_ready_queue_completed, successMid_completed]
        rcases Finset.mem_insert.mp hupmem with h1 | h2
        · have hub : up.block_id = b.block_id := Sum.inl.inj h1
          have hut : up.task_id = b.task_id := by
            rw [← hupown, hub, howner]
          rw [if_pos hut, hub]
          exact Finset.mem_insert_self _ _
        · obtain ⟨j, hj, hjc⟩ := hinv.surf_inl _ h2
          have hjj : up.block_id = j := Sum.inl.inj hj
          by_cases hu : up.task_id = b.task_id
          · rw [if_pos hu]
            apply Finset.mem_insert_of_mem
            rw [hjj]
            have hoj : G.owner j = b.task_id := by
              rw [← hjj, hupown, hu]
            rw [← hoj]
            exact hjc
          · rw [if_neg hu]
            rw [hjj]
            have hoj : G.owner j = up.task_id := by
              rw [← hjj, hupown]
            rw [← hoj]
            exact hjc
      · rintro ⟨hdown, hdt, hcompl⟩
        refine ⟨hdown, hdt, ?_⟩
        rw [upstreamReady_iff]
        intro up hup
        have hc : up.block_id ∈ ((update_ready_queue G b.block_id
            (successMid b s)).1.task_blocks up.task_id).completed_blocks :=
          hcompl up hup
        rw [update_ready_queue_completed, successMid_completed] at hc
        by_cases hu : up.task_id = b.task_id
        · rw [if_pos hu] at hc
          rcases Finset.mem_insert.mp hc with h1 | h2
          · rw [h1]
            exact Finset.mem_insert_self _ _
          · exact Finset.mem_insert_of_mem (hinv.comp_surf b.task_id up.block_id h2).1
        · rw [if_neg hu] at hc
          exact Finset.mem_insert_of_mem (hinv.comp_surf up.task_id up.block_id hc).1
  · rw [release_block_missing_processing G s b (Or.inl hst) hmem] at hrel
    exact Except.noConfusion hrel

/-- The chain graph is well-formed. -/
theorem Gchain_wf : WFGraph Gchain := by
  refine ⟨?_, ?_, ?_⟩
  · intro i d hd
    have hd' : d ∈ (if i = 0 then [blkB1] else if i = 1 then [blkB1]
        else if i = 2 then [blkC1] else ([] : List Block)) := hd
    split_ifs at hd'
    · rw [List.mem_singleton.mp hd']
      decide
    · rw [List.mem_singleton.mp hd']
      decide
    · rw [List.mem_singleton.mp hd']
      decide
    · exact absurd hd' (List.not_mem_nil d)
  · intro i u hu
    have hu' : u ∈ (if i = 2 then [blkA1, blkA2]
        else if i = 3 then [blkB1] else ([] : List Block)) := hu
    split_ifs at hu'
    · rcases List.mem_cons.mp hu' with h1 | h2
      · rw [h1]
        decide
      · rw [List.mem_singleton.mp h2]
        decide
    · rw [List.mem_singleton.mp hu']
      decide
    · exact absurd hu' (List.not_mem_nil u)
  · intro t p hp b hb
    have hp' : (if t = 0 then some ((2 : ℤ), [blkA1, blkA2]) else none) = some p := hp
    split_ifs at hp' with h0
    · subst h0
      have hpp : p = ((2 : ℤ), [blkA1, blkA2]) := (Option.some.inj hp').symm
      rw [hpp] at hb
      rcases List.mem_cons.mp hb with h1 | h2
      · rw [h1]
        exact ⟨rfl, rfl⟩
      · rw [List.mem_singleton.mp h2]
        exact ⟨rfl, rfl⟩

theorem stChain0_reach : Reachable Gchain capNone stChain0 :=
  .init tasksChain stChain0 stChain0_ok

theorem stChain1_reach : Reachable Gchain capNone stChain1 :=
  .step_acquire 1 0 stChain0 stChain0_reach

theorem stChain2_reach : Reachable Gchain capNone stChain2 :=
  .step_acquire 1 0 stChain1 stChain1_reach

/-- Witness for C1 at a concrete input: in the reachable chain state with
both A blocks processing, releasing A's first block appends to task B's
ready queue exactly the downstream blocks whose upstream blocks are all
completed afterwards (here: none, since A's second block is still open). -/
theorem readiness_iff_upstream_complete_witness :
    ∃ new : List Block,
      (stChain3.task_blocks 1).ready_queue =
        (stChain2.task_blocks 1).ready_queue ++ new ∧
      ∀ d : Block, d ∈ new ↔
        (d ∈ Gchain.downstream 0 ∧ d.task_id = 1 ∧
          ∀ up ∈ Gchain.upstream d.block_id, completedIn stChain3 up) :=
  readiness_iff_upstream_complete Gchain capNone Gchain_wf stChain2 stChain2_reach
    ⟨0, 0, BlockStatus.SUCCESS⟩ stChain3 (relDict relA1) rfl rfl 1
